import Mathlib

/-!
Shallow embedding of the `AnomalyModule` base class
(`src/anomalib/models/components/base/anomaly_module.py`) and of the
per-model lookup logic in the integration-test harness
(`tests/integration/model/test_models.py`), together with proofs of the
specification's claims about them.

Python strings are Lean `String`s; Python `str.split`, `str.join` and
`str.startswith` are embedded as functions on the underlying character
lists.  A Python `dict` (the checkpoint state mapping) is an ordered
association list with unique keys, and in-place mutation is explicit
state passing.  Exceptions are an explicit error type threaded through
`Except`.  Dynamic class objects are identified by their defining module
and name; `importlib.import_module` / `getattr` are lookups in an
explicit environment of modules.
-/

/-- Python exception values relevant to this excerpt.  `importError`
carries the message and, via `raise ... from`, the chained cause. -/
inductive PyError where
  | keyError (key : String)
  | moduleNotFound (module : String)
  | attributeError (module attr : String)
  | importError (msg : String) (cause : PyError)
  | indexError
  | typeError
  | notImplementedError
deriving DecidableEq, Repr

/-- Whether an exception is an import-kind error (`ImportError` or its
subclass `ModuleNotFoundError`). -/
def PyError.isImportKind : PyError → Bool
  | PyError.moduleNotFound _ => true
  | PyError.importError _ _ => true
  | _ => false

/-- A Python class object, identified by `__module__` and `__name__`. -/
structure PyClass where
  module : String
  name : String
deriving DecidableEq, Repr

/-- An instance of a dynamically-resolved class (threshold object,
normalization metric, or metric instance); only its concrete class is
observable at this layer. -/
structure PyObj where
  cls : PyClass
deriving DecidableEq, Repr

/-- A Python module: its dotted name and the classes reachable from it
by `getattr`. -/
structure PyModuleDef where
  name : String
  attrs : List (String × PyClass)
deriving DecidableEq, Repr

/-- The importable environment seen by `importlib.import_module`. -/
abbrev Env := List PyModuleDef

/-- A value held in a state mapping: the class-path string markers added
by `_save_to_state_dict`, or opaque tensor data. -/
inductive StateVal where
  | str (s : String)
  | tensor
deriving DecidableEq, Repr

/-- The checkpoint state mapping (`OrderedDict[str, Any]`). -/
abbrev StateDict := List (String × StateVal)

/-! ### Python string primitives -/

/-- `str.split(".")` on character lists: splits at every `'.'`, keeping
empty segments, and returns `[""]` on the empty string. -/
def splitDots : List Char → List (List Char)
  | [] => [[]]
  | c :: rest =>
    match splitDots rest with
    | [] => []
    | s :: ss => if c = '.' then [] :: s :: ss else (c :: s) :: ss

/-- `".".join` on character lists. -/
def joinDots : List (List Char) → List Char
  | [] => []
  | [s] => s
  | s :: t :: ss => s ++ '.' :: joinDots (t :: ss)

/-- Embedding of Python `s.split(".")`. -/
def pySplitDot (s : String) : List String :=
  (splitDots s.data).map (fun l => { data := l })

/-- Embedding of Python `".".join(ls)`. -/
def pyJoinDot (ls : List String) : String :=
  { data := joinDots (ls.map String.data) }

/-- Embedding of Python `s.startswith(p)`. -/
def pyStartsWith (s p : String) : Bool :=
  p.data.isPrefixOf s.data

/-! ### Dict primitives (Python `dict` with insertion order) -/

/-- `key in d`. -/
def dictContains (sd : StateDict) (k : String) : Bool :=
  sd.any (fun kv => kv.1 = k)

/-- `d[key]` as an optional lookup. -/
def dictGet? (sd : StateDict) (k : String) : Option StateVal :=
  (sd.find? (fun kv => kv.1 = k)).map (fun kv => kv.2)

/-- `d[key] = v`: update in place if the key exists, else append. -/
def dictSet : StateDict → String → StateVal → StateDict
  | [], k, v => [(k, v)]
  | kv :: rest, k, v =>
    if kv.1 = k then (k, v) :: rest else kv :: dictSet rest k v

/-- `d.pop(key)`: the value and the remaining mapping, or `KeyError`. -/
def dictPop : StateDict → String → Except PyError (StateVal × StateDict)
  | [], k => Except.error (PyError.keyError k)
  | kv :: rest, k =>
    if kv.1 = k then Except.ok (kv.2, rest)
    else
      match dictPop rest k with
      | Except.ok (v, rest') => Except.ok (v, kv :: rest')
      | Except.error e => Except.error e

/-- Removal of the first binding of a key, the remainder `dictPop` returns. -/
def dictErase : StateDict → String → StateDict
  | [], _ => []
  | kv :: rest, k => if kv.1 = k then rest else kv :: dictErase rest k

/-! ### Dynamic import -/

/-- `importlib.import_module`: lookup in the environment, raising
`ModuleNotFoundError` (an `ImportError`) when the module is absent. -/
def import_module (env : Env) (name : String) : Except PyError PyModuleDef :=
  match env.find? (fun md => md.name = name) with
  | some md => Except.ok md
  | none => Except.error (PyError.moduleNotFound name)

/-- `getattr(module, attr)` resolving a class, raising `AttributeError`
when absent. -/
def getattrCls (md : PyModuleDef) (attr : String) : Except PyError PyClass :=
  match md.attrs.find? (fun a => a.1 = attr) with
  | some a => Except.ok a.2
  | none => Except.error (PyError.attributeError md.name attr)

/-- `f"{cls.__module__}.{cls.__name__}"`. -/
def classPath (c : PyClass) : String :=
  c.module ++ "." ++ c.name

/-- The module/attribute resolution `_get_instance` performs on a dotted
class path: import of all but the last dot-segment, then `getattr` of
the last segment.  An empty segment list (unreachable because `split`
never returns an empty list) is Python's `IndexError`. -/
def resolvePath (env : Env) (class_path : String) : Except PyError PyClass := do
  let md ← import_module env (pyJoinDot (pySplitDot class_path).dropLast)
  match (pySplitDot class_path).getLast? with
  | some last => getattrCls md last
  | none => Except.error PyError.indexError

/-! ### The data model of `AnomalyModule` -/

/-- `AnomalibMetricCollection` identity: its constructor prefix tag and
the metric instances added so far.  The class itself lives in
`anomalib.metrics`, outside this excerpt. -/
structure AnomalibMetricCollection where
  pfx : String
  metrics : List PyObj
deriving DecidableEq, Repr

/-- Modelled from the spec: `AnomalibMetricCollection.add_metrics`
(defined in `anomalib.metrics`, not part of the excerpt) — "a
metric-collection type supporting dynamic addition of named metric
instances"; adding appends the instance to the collection. -/
def AnomalibMetricCollection.add_metrics
    (mc : AnomalibMetricCollection) (o : PyObj) : AnomalibMetricCollection :=
  { mc with metrics := mc.metrics ++ [o] }

/-- The attribute surface of `AnomalyModule` relevant to the claims.
Attributes are declared without assignment in `__init__`, so each is an
`Option`; `hasattr` is `Option.isSome`.  The opaque `model`, `loss` and
`callbacks` slots carry no observable state at this layer. -/
structure AnomalyModule where
  image_threshold : Option PyObj
  pixel_threshold : Option PyObj
  normalization_metrics : Option PyObj
  pixel_metrics : Option AnomalibMetricCollection
  image_metrics : Option AnomalibMetricCollection
deriving DecidableEq, Repr

/-- A freshly constructed instance: every lazily-assigned attribute absent. -/
def AnomalyModule.empty : AnomalyModule :=
  ⟨none, none, none, none, none⟩

/-- `getattr(self, f"{name}_metrics")` for `name` ∈ {"pixel", "image"},
`none` when the attribute is absent. -/
def getMetricsAttr (m : AnomalyModule) (name : String) :
    Option AnomalibMetricCollection :=
  if name = "pixel" then m.pixel_metrics
  else if name = "image" then m.image_metrics
  else none

/-- `setattr(self, f"{name}_metrics", mc)` for `name` ∈ {"pixel", "image"}. -/
def setMetricsAttr (m : AnomalyModule) (name : String)
    (mc : AnomalibMetricCollection) : AnomalyModule :=
  if name = "pixel" then { m with pixel_metrics := some mc }
  else if name = "image" then { m with image_metrics := some mc }
  else m

/-- The state entries the external framework emits for one metric
collection attribute: one serialized-state key per metric instance, the
metric's class name as the second dot-separated segment of the key. -/
def metricStateEntries (attr : String) :
    Option AnomalibMetricCollection → StateDict
  | none => []
  | some mc =>
    mc.metrics.map (fun o => (attr ++ "." ++ o.cls.name ++ ".state", StateVal.tensor))

/-- The external framework's own save routine
(`super()._save_to_state_dict`): appends the framework-owned entries —
here the per-metric serialized state described by the spec's external
interface section ("keys whose name starts with `pixel_metrics` or
`image_metrics` ... with the metric's class name embedded as the second
dot-separated segment of the key"). -/
def superSaveToStateDict (m : AnomalyModule) (destination : StateDict)
    (pfx : String) (keep_vars : Bool) : StateDict :=
  let _ := keep_vars
  destination
    ++ metricStateEntries (pfx ++ "pixel_metrics") m.pixel_metrics
    ++ metricStateEntries (pfx ++ "image_metrics") m.image_metrics

/-- The external framework's own load routine
(`super().load_state_dict`): parameter restoration is outside the
excerpt; the embedding records the module and the mapping the framework
receives. -/
def superLoadStateDict (m : AnomalyModule) (state_dict : StateDict)
    (strict : Bool) : AnomalyModule × StateDict :=
  let _ := strict
  (m, state_dict)

/-! ### The overridden save/load hooks (`anomaly_module.py`) -/

/-- `AnomalyModule._save_to_state_dict`: records the fully-qualified
class path of each present threshold / normalization object, then
delegates to the framework's save routine. -/
def _save_to_state_dict (m : AnomalyModule) (destination : StateDict)
    (pfx : String) (keep_vars : Bool) : StateDict :=
  let d1 := match m.image_threshold with
    | some t => dictSet destination "image_threshold_class" (StateVal.str (classPath t.cls))
    | none => destination
  let d2 := match m.pixel_threshold with
    | some t => dictSet d1 "pixel_threshold_class" (StateVal.str (classPath t.cls))
    | none => d1
  let d3 := match m.normalization_metrics with
    | some t => dictSet d2 "normalization_class" (StateVal.str (classPath t.cls))
    | none => d2
  superSaveToStateDict m d3 pfx keep_vars

/-- `state_dict()`: the framework entry point calling
`_save_to_state_dict` on a fresh destination with an empty prefix. -/
def state_dict (m : AnomalyModule) : StateDict :=
  _save_to_state_dict m [] "" false

/-- `AnomalyModule._get_instance`: pops the class-path entry and builds
a zero-argument instance of the class it names by dynamic module/class
lookup.  A non-string value cannot be `.split` (a `TypeError`). -/
def _get_instance (env : Env) (state_dict : StateDict) (dict_key : String) :
    Except PyError (PyObj × StateDict) := do
  let (v, sd) ← dictPop state_dict dict_key
  match v with
  | StateVal.str class_path =>
    match resolvePath env class_path with
    | Except.ok cls => Except.ok (PyObj.mk cls, sd)
    | Except.error e => Except.error e
  | StateVal.tensor => Except.error PyError.typeError

/-- The metric-class lookup inside `_add_metrics`:
`getattr(importlib.import_module("anomalib.metrics"), class_name)`. -/
def resolveMetric (env : Env) (class_name : String) : Except PyError PyClass := do
  let md ← import_module env "anomalib.metrics"
  getattrCls md class_name

/-- The `for key in metric_keys` loop of `_add_metrics`: per key, the
class-name token is the second dot-segment (`key.split(".")[1]`, an
`IndexError` when absent); lookup failure is re-raised as an
`ImportError` naming the class, chained from the cause; on success one
fresh instance is added to the collection. -/
def addMetricsLoop (env : Env) (mc : AnomalibMetricCollection) :
    List String → Except PyError AnomalibMetricCollection
  | [] => Except.ok mc
  | key :: rest =>
    match (pySplitDot key)[1]? with
    | none => Except.error PyError.indexError
    | some class_name =>
      match resolveMetric env class_name with
      | Except.ok cls => addMetricsLoop env (mc.add_metrics (PyObj.mk cls)) rest
      | Except.error e =>
        Except.error (PyError.importError
          ("Class " ++ class_name ++ " not found in module anomalib.metrics") e)

/-- `AnomalyModule._add_metrics`: collects the keys starting with
`f"{name}_metrics"`, lazily creates the collection
(`AnomalibMetricCollection([], prefix=name)`) when the attribute is
absent, and runs the per-key loop.  `any(metric_keys)` is Python
truthiness: some key is a non-empty string. -/
def _add_metrics (env : Env) (m : AnomalyModule) (name : String)
    (state_dict : StateDict) : Except PyError AnomalyModule :=
  let metric_keys :=
    (state_dict.map Prod.fst).filter (fun k => pyStartsWith k (name ++ "_metrics"))
  if metric_keys.any (fun k => k != "") then
    let metrics := match getMetricsAttr m name with
      | some mc => mc
      | none => AnomalibMetricCollection.mk name []
    match addMetricsLoop env metrics metric_keys with
    | Except.ok mc => Except.ok (setMetricsAttr m name mc)
    | Except.error e => Except.error e
  else Except.ok m

/-- `AnomalyModule._load_metrics`: pixel metrics first, then image. -/
def _load_metrics (env : Env) (m : AnomalyModule) (state_dict : StateDict) :
    Except PyError AnomalyModule := do
  let m1 ← _add_metrics env m "pixel" state_dict
  _add_metrics env m1 "image" state_dict

/-- `AnomalyModule.load_state_dict`: pops each class-marker entry that
is present and reconstructs the corresponding attribute, loads metrics,
then delegates the remaining mapping to the framework's load routine. -/
def load_state_dict (env : Env) (m : AnomalyModule) (state_dict : StateDict)
    (strict : Bool) : Except PyError (AnomalyModule × StateDict) := do
  let (m1, sd1) ←
    if dictContains state_dict "image_threshold_class" then do
      let (obj, sd) ← _get_instance env state_dict "image_threshold_class"
      Except.ok ({ m with image_threshold := some obj }, sd)
    else Except.ok (m, state_dict)
  let (m2, sd2) ←
    if dictContains sd1 "pixel_threshold_class" then do
      let (obj, sd) ← _get_instance env sd1 "pixel_threshold_class"
      Except.ok ({ m1 with pixel_threshold := some obj }, sd)
    else Except.ok (m1, sd1)
  let (m3, sd3) ←
    if dictContains sd2 "normalization_class" then do
      let (obj, sd) ← _get_instance env sd2 "normalization_class"
      Except.ok ({ m2 with normalization_metrics := some obj }, sd)
    else Except.ok (m2, sd2)
  let m4 ← _load_metrics env m3 sd3
  Except.ok (superLoadStateDict m4 sd3 strict)

/-! ### Step delegation and not-implemented members -/

/-- A batch: `dict[str, str | torch.Tensor]`. -/
abbrev Batch := List (String × StateVal)

/-- `LearningType` from the `anomalib` package root. -/
inductive LearningType where
  | ONE_CLASS
  | ZERO_SHOT
  | FEW_SHOT
deriving DecidableEq, Repr

/-- The base class's `validation_step` body: `raise NotImplementedError`. -/
def validation_step (m : AnomalyModule) (batch : Batch) (batch_idx : Nat) :
    Except PyError StateVal :=
  let _ := m
  let _ := batch
  let _ := batch_idx
  Except.error PyError.notImplementedError

/-- The base class's `trainer_arguments` property body:
`raise NotImplementedError`. -/
def trainer_arguments (m : AnomalyModule) :
    Except PyError (List (String × StateVal)) :=
  let _ := m
  Except.error PyError.notImplementedError

/-- The base class's `learning_type` property body:
`raise NotImplementedError`. -/
def learning_type (m : AnomalyModule) : Except PyError LearningType :=
  let _ := m
  Except.error PyError.notImplementedError

/-- `AnomalyModule.predict_step`: deletes `dataloader_idx` and calls the
(dynamically dispatched, subclass-supplied) `validation_step`, here the
parameter `vstep`. -/
def predict_step {O : Type} (vstep : Batch → Nat → Except PyError O)
    (batch : Batch) (batch_idx : Nat) (dataloader_idx : Nat) :
    Except PyError O :=
  let _ := dataloader_idx
  vstep batch batch_idx

/-- `AnomalyModule.test_step`: calls `predict_step` with the default
`dataloader_idx = 0`. -/
def test_step {O : Type} (vstep : Batch → Nat → Except PyError O)
    (batch : Batch) (batch_idx : Nat) : Except PyError O :=
  predict_step vstep batch batch_idx 0

/-! ### The integration-test harness lookups (`test_models.py`) -/

/-- `TaskType` from the `anomalib` package root. -/
inductive TaskType where
  | DETECTION
  | CLASSIFICATION
  | SEGMENTATION
deriving DecidableEq, Repr

/-- The task-type selection at the head of `TestAPI._get_objects`. -/
def selectTaskType (model_name : String) : TaskType :=
  if model_name = "rkde" ∨ model_name = "ai_vad" then TaskType.DETECTION
  else if model_name = "ganomaly" ∨ model_name = "dfkde" then TaskType.CLASSIFICATION
  else TaskType.SEGMENTATION

/-- A keyword-argument value in the harness's `extra_args`. -/
inductive ArgVal where
  | size (h w : Nat)
  | nat (n : Nat)
deriving DecidableEq, Repr

/-- The `extra_args` per-model keyword overrides in
`TestAPI._get_objects`. -/
def extraModelArgs (model_name : String) : List (String × ArgVal) :=
  if model_name = "patchcore" then [("input_size", ArgVal.size 256 256)]
  else if model_name = "rkde" ∨ model_name = "dfkde" then
    [("n_pca_components", ArgVal.nat 2)]
  else []

/-- What `TestAPI.test_export` decides before building objects: skip
with a stated reason, or proceed with the chosen input size. -/
inductive ExportDecision where
  | skip (reason : String)
  | proceed (input_size : Nat × Nat)
deriving DecidableEq, Repr

/-- The model-name dispatch at the head of `TestAPI.test_export`. -/
def exportDecision (model_name : String) : ExportDecision :=
  if model_name = "reverse_distillation" then
    ExportDecision.skip "Reverse distillation fails to convert to ONNX"
  else if model_name = "ai_vad" then
    ExportDecision.skip "Export fails for video models."
  else if model_name = "win_clip" then ExportDecision.proceed (240, 240)
  else if model_name = "uflow" then ExportDecision.proceed (448, 448)
  else ExportDecision.proceed (256, 256)

/-! ### Lemmas about the string primitives -/

theorem str_append_assoc (a b c : String) : (a ++ b) ++ c = a ++ (b ++ c) := by
  apply String.ext
  simp [String.data_append, List.append_assoc]

theorem data_append' (a b : String) : (a ++ b).data = a.data ++ b.data :=
  String.data_append a b

theorem splitDots_ne_nil (l : List Char) : splitDots l ≠ [] := by
  induction l with
  | nil => simp [splitDots]
  | cons c rest ih =>
    cases h : splitDots rest with
    | nil => exact absurd h ih
    | cons s ss =>
      simp only [splitDots, h]
      split <;> simp

theorem splitDots_no_dot (l : List Char) (h : '.' ∉ l) : splitDots l = [l] := by
  induction l with
  | nil => rfl
  | cons c rest ih =>
    simp only [List.mem_cons, not_or] at h
    simp only [splitDots, ih h.2]
    rw [if_neg (fun hc => h.1 hc.symm)]

theorem splitDots_append (a b : List Char) :
    splitDots (a ++ '.' :: b) = splitDots a ++ splitDots b := by
  induction a with
  | nil =>
    cases h : splitDots b with
    | nil => exact absurd h (splitDots_ne_nil b)
    | cons s ss =>
      simp only [List.nil_append, splitDots, h]
      simp
  | cons c a' ih =>
    rw [List.cons_append]
    cases h : splitDots a' with
    | nil => exact absurd h (splitDots_ne_nil a')
    | cons s ss =>
      rw [h] at ih
      simp only [splitDots, ih, h, List.cons_append]
      split <;> simp

theorem joinDots_splitDots (l : List Char) : joinDots (splitDots l) = l := by
  induction l with
  | nil => rfl
  | cons c rest ih =>
    cases h : splitDots rest with
    | nil => exact absurd h (splitDots_ne_nil rest)
    | cons s ss =>
      rw [h] at ih
      simp only [splitDots, h]
      by_cases hc : c = '.'
      · subst hc
        rw [if_pos rfl]
        cases ss with
        | nil => simpa [joinDots] using ih
        | cons t ts => simpa [joinDots] using ih
      · rw [if_neg hc]
        cases ss with
        | nil => simpa [joinDots] using ih
        | cons t ts => simpa [joinDots] using ih

theorem pySplitDot_append (a b : String) (h : '.' ∉ b.data) :
    pySplitDot (a ++ "." ++ b) = pySplitDot a ++ [b] := by
  have hdata : (a ++ "." ++ b).data = a.data ++ '.' :: b.data := by
    simp [data_append']
  simp only [pySplitDot, hdata, splitDots_append, splitDots_no_dot b.data h]
  simp

theorem pyJoinDot_pySplitDot (s : String) : pyJoinDot (pySplitDot s) = s := by
  apply String.ext
  simp only [pyJoinDot, pySplitDot, List.map_map]
  have : (String.data ∘ fun l => ({ data := l } : String)) = id := rfl
  rw [this, List.map_id, joinDots_splitDots]

theorem resolvePath_classPath (env : Env) (c : PyClass)
    (h : '.' ∉ c.name.data) :
    resolvePath env (classPath c) =
      match import_module env c.module with
      | Except.ok md => getattrCls md c.name
      | Except.error e => Except.error e := by
  have hsplit : pySplitDot (classPath c) = pySplitDot c.module ++ [c.name] :=
    pySplitDot_append c.module c.name h
  have hlast : (pySplitDot (classPath c)).getLast? = some c.name := by
    rw [hsplit]; exact List.getLast?_concat _
  have hdrop : (pySplitDot (classPath c)).dropLast = pySplitDot c.module := by
    rw [hsplit]; exact List.dropLast_concat
  simp only [resolvePath, hlast, hdrop, pyJoinDot_pySplitDot, bind, Except.bind]
  cases import_module env c.module <;> rfl

theorem pyStartsWith_append_self (p r : String) :
    pyStartsWith (p ++ r) p = true := by
  simp only [pyStartsWith, data_append', List.isPrefixOf_iff_prefix]
  exact List.prefix_append p.data r.data

theorem pyStartsWith_eq_false_of_take (a r p : String)
    (hlen : p.data.length ≤ a.data.length)
    (h : a.data.take p.data.length ≠ p.data) :
    pyStartsWith (a ++ r) p = false := by
  simp only [pyStartsWith, data_append']
  by_contra hb
  simp only [Bool.not_eq_false, List.isPrefixOf_iff_prefix] at hb
  rw [List.prefix_iff_eq_take] at hb
  apply h
  rw [List.take_append_eq_append_take] at hb
  have : p.data.length - a.data.length = 0 := Nat.sub_eq_zero_of_le hlen
  rw [this, List.take_zero, List.append_nil] at hb
  exact hb.symm

theorem append_ne_of_take (p c : String)
    (h : c.data.take p.data.length ≠ p.data) (r : String) :
    p ++ r ≠ c := by
  intro hc
  apply h
  rw [← hc, data_append', List.take_left]

/-! ### Lemmas about the dict primitives -/

theorem dictContains_append (a b : StateDict) (k : String) :
    dictContains (a ++ b) k = (dictContains a k || dictContains b k) := by
  simp [dictContains, List.any_append]

theorem dictErase_of_not_contains (sd : StateDict) (k : String)
    (h : dictContains sd k = false) : dictErase sd k = sd := by
  induction sd with
  | nil => rfl
  | cons kv rest ih =>
    simp only [dictContains, List.any_cons, Bool.or_eq_false_iff] at h
    simp only [dictErase]
    rw [if_neg (by simpa using h.1)]
    rw [ih h.2]

theorem dictPop_of_contains (sd : StateDict) (k : String)
    (h : dictContains sd k = true) :
    ∃ v, dictGet? sd k = some v ∧ dictPop sd k = Except.ok (v, dictErase sd k) := by
  induction sd with
  | nil => simp [dictContains] at h
  | cons kv rest ih =>
    by_cases hk : kv.1 = k
    · refine ⟨kv.2, ?_, ?_⟩
      · simp [dictGet?, List.find?, hk]
      · simp [dictPop, dictErase, hk]
    · have h' : dictContains rest k = true := by
        simpa [dictContains, hk] using h
      obtain ⟨v, hget, hpop⟩ := ih h'
      refine ⟨v, ?_, ?_⟩
      · simpa [dictGet?, List.find?_cons, hk] using hget
      · simp only [dictPop, dictErase, if_neg hk, hpop]

theorem dictContains_of_get (sd : StateDict) (k : String) (v : StateVal)
    (h : dictGet? sd k = some v) : dictContains sd k = true := by
  induction sd with
  | nil => simp [dictGet?] at h
  | cons kv rest ih =>
    by_cases hk : kv.1 = k
    · simp [dictContains, hk]
    · rw [dictGet?, List.find?_cons_of_neg _ (by simpa using hk)] at h
      have hr : dictContains rest k = true := ih h
      rw [dictContains] at hr
      rw [dictContains, List.any_cons, hr, Bool.or_true]

theorem dictGet?_unique (sd : StateDict) (k : String) (v w : StateVal)
    (h : dictGet? sd k = some v) (h' : dictGet? sd k = some w) : v = w := by
  rw [h] at h'
  exact (Option.some.injEq _ _ ▸ h').symm ▸ rfl

theorem mem_dictErase_of_ne (sd : StateDict) (k : String)
    (kv : String × StateVal) (h : kv ∈ sd) (hne : kv.1 ≠ k) :
    kv ∈ dictErase sd k := by
  induction sd with
  | nil => simp at h
  | cons kv' rest ih =>
    simp only [dictErase]
    by_cases hk : kv'.1 = k
    · rw [if_pos hk]
      rcases List.mem_cons.mp h with h1 | h1
      · exact absurd (h1 ▸ hk) hne
      · exact h1
    · rw [if_neg hk]
      rcases List.mem_cons.mp h with h1 | h1
      · exact h1 ▸ List.mem_cons_self _ _
      · exact List.mem_cons_of_mem _ (ih h1)

/-! ### A structured view of `load_state_dict` -/

/-- Proof-level view of one conditional pop-and-reconstruct step of
`load_state_dict`: the reconstructed object when the marker key was
present, and the mapping after the pop. -/
def popClassKey (env : Env) (sd : StateDict) (k : String) :
    Except PyError (Option PyObj × StateDict) :=
  if dictContains sd k then
    match _get_instance env sd k with
    | Except.ok (o, sd') => Except.ok (some o, sd')
    | Except.error e => Except.error e
  else Except.ok (none, sd)

theorem load_state_dict_eq (env : Env) (m : AnomalyModule) (sd : StateDict)
    (strict : Bool) :
    load_state_dict env m sd strict = (do
      let (o1, sd1) ← popClassKey env sd "image_threshold_class"
      let (o2, sd2) ← popClassKey env sd1 "pixel_threshold_class"
      let (o3, sd3) ← popClassKey env sd2 "normalization_class"
      let m4 ← _load_metrics env
        { m with
          image_threshold := o1.or m.image_threshold,
          pixel_threshold := o2.or m.pixel_threshold,
          normalization_metrics := o3.or m.normalization_metrics } sd3
      Except.ok (superLoadStateDict m4 sd3 strict)) := by
  simp only [load_state_dict, popClassKey, Bind.bind, Except.bind]
  by_cases h1 : dictContains sd "image_threshold_class"
  · simp only [if_pos h1]
    cases _get_instance env sd "image_threshold_class" with
    | error e => rfl
    | ok p =>
      obtain ⟨o1, sd1⟩ := p
      by_cases h2 : dictContains sd1 "pixel_threshold_class"
      · simp only [if_pos h2]
        cases _get_instance env sd1 "pixel_threshold_class" with
        | error e => rfl
        | ok q =>
          obtain ⟨o2, sd2⟩ := q
          by_cases h3 : dictContains sd2 "normalization_class"
          · simp only [if_pos h3]
            cases _get_instance env sd2 "normalization_class" with
            | error e => rfl
            | ok r => rfl
          · simp only [if_neg h3]
            simp [Option.or]
      · simp only [if_neg h2]
        by_cases h3 : dictContains sd1 "normalization_class"
        · simp only [if_pos h3]
          cases _get_instance env sd1 "normalization_class" with
          | error e => rfl
          | ok r => simp [Option.or]
        · simp only [if_neg h3]
          simp [Option.or]
  · simp only [if_neg h1]
    by_cases h2 : dictContains sd "pixel_threshold_class"
    · simp only [if_pos h2]
      cases _get_instance env sd "pixel_threshold_class" with
      | error e => rfl
      | ok q =>
        obtain ⟨o2, sd2⟩ := q
        by_cases h3 : dictContains sd2 "normalization_class"
        · simp only [if_pos h3]
          cases _get_instance env sd2 "normalization_class" with
          | error e => rfl
          | ok r => simp [Option.or]
        · simp only [if_neg h3]
          simp [Option.or]
    · simp only [if_neg h2]
      by_cases h3 : dictContains sd "normalization_class"
      · simp only [if_pos h3]
        cases _get_instance env sd "normalization_class" with
        | error e => rfl
        | ok r => simp [Option.or]
      · simp only [if_neg h3]
        simp [Option.or]

theorem dictPop_not_contains (sd : StateDict) (k : String)
    (h : dictContains sd k = false) :
    dictPop sd k = Except.error (PyError.keyError k) := by
  induction sd with
  | nil => rfl
  | cons kv rest ih =>
    simp only [dictContains, List.any_cons, Bool.or_eq_false_iff] at h
    rw [dictPop, if_neg (by simpa using h.1),
      ih (by simpa [dictContains] using h.2)]

theorem _get_instance_of_resolved (env : Env) (sd : StateDict) (k : String)
    (p : String) (c : PyClass)
    (hget : dictGet? sd k = some (StateVal.str p))
    (hres : resolvePath env p = Except.ok c) :
    _get_instance env sd k = Except.ok (PyObj.mk c, dictErase sd k) := by
  have hcont : dictContains sd k = true := dictContains_of_get sd k _ hget
  obtain ⟨v, hget', hpop⟩ := dictPop_of_contains sd k hcont
  have hv : v = StateVal.str p := by
    rw [hget'] at hget
    exact Option.some_inj.mp hget
  rw [_get_instance]
  simp only [Bind.bind, Except.bind, hpop, hv, hres]

theorem _get_instance_of_error (env : Env) (sd : StateDict) (k : String)
    (p : String) (e : PyError)
    (hget : dictGet? sd k = some (StateVal.str p))
    (hres : resolvePath env p = Except.error e) :
    _get_instance env sd k = Except.error e := by
  have hcont : dictContains sd k = true := dictContains_of_get sd k _ hget
  obtain ⟨v, hget', hpop⟩ := dictPop_of_contains sd k hcont
  have hv : v = StateVal.str p := by
    rw [hget'] at hget
    exact Option.some_inj.mp hget
  rw [_get_instance]
  simp only [Bind.bind, Except.bind, hpop, hv, hres]

theorem _get_instance_of_tensor (env : Env) (sd : StateDict) (k : String)
    (hget : dictGet? sd k = some StateVal.tensor) :
    _get_instance env sd k = Except.error PyError.typeError := by
  have hcont : dictContains sd k = true := dictContains_of_get sd k _ hget
  obtain ⟨v, hget', hpop⟩ := dictPop_of_contains sd k hcont
  have hv : v = StateVal.tensor := by
    rw [hget'] at hget
    exact Option.some_inj.mp hget
  rw [_get_instance]
  simp only [Bind.bind, Except.bind, hpop, hv]

theorem _get_instance_not_contains (env : Env) (sd : StateDict) (k : String)
    (h : dictContains sd k = false) :
    _get_instance env sd k = Except.error (PyError.keyError k) := by
  rw [_get_instance]
  simp only [Bind.bind, Except.bind, dictPop_not_contains sd k h]

theorem _get_instance_ok_inv (env : Env) (sd : StateDict) (k : String)
    (o : PyObj) (sd' : StateDict)
    (h : _get_instance env sd k = Except.ok (o, sd')) :
    sd' = dictErase sd k ∧
      ∃ p c, dictGet? sd k = some (StateVal.str p) ∧
        resolvePath env p = Except.ok c ∧ o = PyObj.mk c := by
  by_cases hc : dictContains sd k
  · obtain ⟨v, hget, _⟩ :=
      dictPop_of_contains sd k (by simpa using hc)
    cases v with
    | tensor =>
      rw [_get_instance_of_tensor env sd k hget] at h
      exact absurd h (by simp)
    | str p =>
      cases hres : resolvePath env p with
      | error e =>
        rw [_get_instance_of_error env sd k p e hget hres] at h
        exact absurd h (by simp)
      | ok c =>
        rw [_get_instance_of_resolved env sd k p c hget hres] at h
        simp only [Except.ok.injEq, Prod.mk.injEq] at h
        exact ⟨h.2.symm, p, c, hget, hres, h.1.symm⟩
  · rw [_get_instance_not_contains env sd k (by simpa using hc)] at h
    exact absurd h (by simp)

theorem popClassKey_not_contains (env : Env) (sd : StateDict) (k : String)
    (h : dictContains sd k = false) :
    popClassKey env sd k = Except.ok (none, sd) := by
  rw [popClassKey, if_neg (by simp [h])]

theorem popClassKey_resolved (env : Env) (sd : StateDict) (k : String)
    (p : String) (c : PyClass)
    (hget : dictGet? sd k = some (StateVal.str p))
    (hres : resolvePath env p = Except.ok c) :
    popClassKey env sd k = Except.ok (some (PyObj.mk c), dictErase sd k) := by
  have hcont : dictContains sd k = true := dictContains_of_get sd k _ hget
  rw [popClassKey, if_pos (by simp [hcont]),
    _get_instance_of_resolved env sd k p c hget hres]

theorem popClassKey_error (env : Env) (sd : StateDict) (k : String)
    (p : String) (e : PyError)
    (hget : dictGet? sd k = some (StateVal.str p))
    (hres : resolvePath env p = Except.error e) :
    popClassKey env sd k = Except.error e := by
  have hcont : dictContains sd k = true := dictContains_of_get sd k _ hget
  rw [popClassKey, if_pos (by simp [hcont]),
    _get_instance_of_error env sd k p e hget hres]

theorem popClassKey_ok_inv (env : Env) (sd : StateDict) (k : String)
    (o : Option PyObj) (sd' : StateDict)
    (h : popClassKey env sd k = Except.ok (o, sd')) :
    sd' = dictErase sd k := by
  by_cases hc : dictContains sd k
  · rw [popClassKey, if_pos (by simp [hc])] at h
    cases hg : _get_instance env sd k with
    | error e =>
      rw [hg] at h
      exact absurd h (by simp)
    | ok q =>
      obtain ⟨o0, sd0⟩ := q
      rw [hg] at h
      simp only [Except.ok.injEq, Prod.mk.injEq] at h
      exact h.2.symm ▸ (_get_instance_ok_inv env sd k o0 sd0 hg).1
  · rw [popClassKey_not_contains env sd k (by simpa using hc)] at h
    simp only [Except.ok.injEq, Prod.mk.injEq] at h
    rw [← h.2, dictErase_of_not_contains sd k (by simpa using hc)]

/-! ### Lemmas about metric loading -/

/-- The instances the `_add_metrics` loop constructs, for a key list on
which every class-name token resolves. -/
def resolvedInstances (env : Env) (keys : List String) : List PyObj :=
  keys.filterMap (fun k => ((pySplitDot k)[1]?).bind (fun nm =>
    match resolveMetric env nm with
    | Except.ok c => some (PyObj.mk c)
    | Except.error _ => none))

/-- Every key in the list carries a class-name token that resolves in
the metrics namespace. -/
def keysResolve (env : Env) (keys : List String) : Prop :=
  ∀ k ∈ keys, ∃ nm c,
    (pySplitDot k)[1]? = some nm ∧ resolveMetric env nm = Except.ok c

theorem addMetricsLoop_eq (env : Env) (keys : List String) :
    ∀ mc : AnomalibMetricCollection, keysResolve env keys →
      addMetricsLoop env mc keys =
        Except.ok ⟨mc.pfx, mc.metrics ++ resolvedInstances env keys⟩ := by
  induction keys with
  | nil =>
    intro mc _
    simp [addMetricsLoop, resolvedInstances]
  | cons k rest ih =>
    intro mc h
    obtain ⟨nm, c, htok, hres⟩ := h k (List.mem_cons_self ..)
    have hrest : keysResolve env rest := fun k' hk' =>
      h k' (List.mem_cons_of_mem _ hk')
    have hri : resolvedInstances env (k :: rest) =
        PyObj.mk c :: resolvedInstances env rest := by
      simp [resolvedInstances, List.filterMap_cons, htok, hres]
    rw [addMetricsLoop]
    simp only [htok, hres]
    rw [ih (mc.add_metrics (PyObj.mk c)) hrest, hri]
    simp [AnomalibMetricCollection.add_metrics, List.append_assoc]

theorem setMetricsAttr_preserves (m : AnomalyModule) (name : String)
    (mc : AnomalibMetricCollection) :
    (setMetricsAttr m name mc).image_threshold = m.image_threshold ∧
      (setMetricsAttr m name mc).pixel_threshold = m.pixel_threshold ∧
      (setMetricsAttr m name mc).normalization_metrics = m.normalization_metrics := by
  rw [setMetricsAttr]
  split_ifs <;> exact ⟨rfl, rfl, rfl⟩

theorem _add_metrics_ok_preserves (env : Env) (m : AnomalyModule)
    (name : String) (sd : StateDict) (m' : AnomalyModule)
    (h : _add_metrics env m name sd = Except.ok m') :
    m'.image_threshold = m.image_threshold ∧
      m'.pixel_threshold = m.pixel_threshold ∧
      m'.normalization_metrics = m.normalization_metrics := by
  simp only [_add_metrics] at h
  by_cases hg : ((sd.map Prod.fst).filter
      (fun k => pyStartsWith k (name ++ "_metrics"))).any (fun k => k != "") = true
  · rw [if_pos hg] at h
    cases hattr : getMetricsAttr m name with
    | some mc0 =>
      simp only [hattr] at h
      cases hl : addMetricsLoop env mc0 ((sd.map Prod.fst).filter
          (fun k => pyStartsWith k (name ++ "_metrics"))) with
      | error e => simp [hl] at h
      | ok mc =>
        simp only [hl, Except.ok.injEq] at h
        exact h ▸ setMetricsAttr_preserves m name mc
    | none =>
      simp only [hattr] at h
      cases hl : addMetricsLoop env (AnomalibMetricCollection.mk name [])
          ((sd.map Prod.fst).filter
            (fun k => pyStartsWith k (name ++ "_metrics"))) with
      | error e => simp [hl] at h
      | ok mc =>
        simp only [hl, Except.ok.injEq] at h
        exact h ▸ setMetricsAttr_preserves m name mc
  · rw [if_neg hg] at h
    simp only [Except.ok.injEq] at h
    exact h ▸ ⟨rfl, rfl, rfl⟩

theorem metric_key_ne_empty (name k : String)
    (h : pyStartsWith k (name ++ "_metrics") = true) : k ≠ "" := by
  intro hk
  subst hk
  rw [pyStartsWith, List.isPrefixOf_iff_prefix] at h
  have hnil : ("" : String).data = [] := rfl
  rw [hnil] at h
  have h2 : (name ++ "_metrics").data = [] := List.prefix_nil.mp h
  rw [data_append'] at h2
  exact absurd (List.append_eq_nil.mp h2).2 (by decide)

theorem metric_guard_eq (sd : StateDict) (name : String) :
    ((sd.map Prod.fst).filter
        (fun k => pyStartsWith k (name ++ "_metrics"))).any (fun k => k != "") =
      !((sd.map Prod.fst).filter
        (fun k => pyStartsWith k (name ++ "_metrics"))).isEmpty := by
  generalize hl : (sd.map Prod.fst).filter
    (fun k => pyStartsWith k (name ++ "_metrics")) = l
  cases l with
  | nil => rfl
  | cons k rest =>
    have hk : k ∈ (sd.map Prod.fst).filter
        (fun k => pyStartsWith k (name ++ "_metrics")) := by
      rw [hl]; exact List.mem_cons_self ..
    have hne : k ≠ "" :=
      metric_key_ne_empty name k (List.mem_filter.mp hk).2
    simp [List.any_cons, hne]

theorem _add_metrics_no_keys (env : Env) (m : AnomalyModule) (name : String)
    (sd : StateDict)
    (h : (sd.map Prod.fst).filter
      (fun k => pyStartsWith k (name ++ "_metrics")) = []) :
    _add_metrics env m name sd = Except.ok m := by
  simp only [_add_metrics, h]
  rfl

theorem _add_metrics_eq_of_resolve (env : Env) (m : AnomalyModule)
    (name : String) (sd : StateDict)
    (hne : (sd.map Prod.fst).filter
      (fun k => pyStartsWith k (name ++ "_metrics")) ≠ [])
    (hres : keysResolve env ((sd.map Prod.fst).filter
      (fun k => pyStartsWith k (name ++ "_metrics")))) :
    _add_metrics env m name sd = Except.ok (setMetricsAttr m name
      ⟨((getMetricsAttr m name).getD (AnomalibMetricCollection.mk name [])).pfx,
        ((getMetricsAttr m name).getD (AnomalibMetricCollection.mk name [])).metrics
          ++ resolvedInstances env ((sd.map Prod.fst).filter
            (fun k => pyStartsWith k (name ++ "_metrics")))⟩) := by
  have hg : ((sd.map Prod.fst).filter
      (fun k => pyStartsWith k (name ++ "_metrics"))).any (fun k => k != "") = true := by
    rw [metric_guard_eq]
    simpa [List.isEmpty_iff] using hne
  simp only [_add_metrics, if_pos hg]
  cases hattr : getMetricsAttr m name with
  | some mc0 =>
    simp only [hattr, Option.getD_some]
    rw [addMetricsLoop_eq env _ mc0 hres]
  | none =>
    simp only [hattr, Option.getD_none]
    rw [addMetricsLoop_eq env _ (AnomalibMetricCollection.mk name []) hres]

theorem _add_metrics_index_error (env : Env) (m : AnomalyModule)
    (name : String) (sd : StateDict) (k0 : String) (rest : List String)
    (hfil : (sd.map Prod.fst).filter
      (fun k => pyStartsWith k (name ++ "_metrics")) = k0 :: rest)
    (htok : (pySplitDot k0)[1]? = none) :
    _add_metrics env m name sd = Except.error PyError.indexError := by
  have hg : ((sd.map Prod.fst).filter
      (fun k => pyStartsWith k (name ++ "_metrics"))).any (fun k => k != "") = true := by
    rw [metric_guard_eq]
    simp [hfil]
  rw [hfil] at hg
  simp only [_add_metrics, hfil, if_pos hg]
  cases hattr : getMetricsAttr m name <;>
    simp [hattr, addMetricsLoop, htok]

theorem _add_metrics_import_error (env : Env) (m : AnomalyModule)
    (name : String) (sd : StateDict) (k0 : String) (rest : List String)
    (nm : String) (e : PyError)
    (hfil : (sd.map Prod.fst).filter
      (fun k => pyStartsWith k (name ++ "_metrics")) = k0 :: rest)
    (htok : (pySplitDot k0)[1]? = some nm)
    (hres : resolveMetric env nm = Except.error e) :
    _add_metrics env m name sd = Except.error (PyError.importError
      ("Class " ++ nm ++ " not found in module anomalib.metrics") e) := by
  have hg : ((sd.map Prod.fst).filter
      (fun k => pyStartsWith k (name ++ "_metrics"))).any (fun k => k != "") = true := by
    rw [metric_guard_eq]
    simp [hfil]
  rw [hfil] at hg
  simp only [_add_metrics, hfil, if_pos hg]
  cases hattr : getMetricsAttr m name <;>
    simp [hattr, addMetricsLoop, htok, hres]

/-! ### The shape of a saved state mapping -/

/-- The marker entry `_save_to_state_dict` records for one optional
threshold/normalization attribute. -/
def optEntry (k : String) (o : Option PyObj) : StateDict :=
  match o with
  | some t => [(k, StateVal.str (classPath t.cls))]
  | none => []

theorem state_dict_eq (m : AnomalyModule) :
    state_dict m =
      optEntry "image_threshold_class" m.image_threshold ++
        (optEntry "pixel_threshold_class" m.pixel_threshold ++
          (optEntry "normalization_class" m.normalization_metrics ++
            (metricStateEntries "pixel_metrics" m.pixel_metrics ++
              metricStateEntries "image_metrics" m.image_metrics))) := by
  have h1 : ("" ++ "pixel_metrics" : String) = "pixel_metrics" := rfl
  have h2 : ("" ++ "image_metrics" : String) = "image_metrics" := rfl
  obtain ⟨it, pt, nmo, pm, im⟩ := m
  cases it <;> cases pt <;> cases nmo <;>
    simp [state_dict, _save_to_state_dict, superSaveToStateDict, optEntry,
      dictSet, h1, h2]

/-! ### Shapes of framework metric keys -/

theorem metricEntry_key_eq (attr s : String) :
    attr ++ "." ++ s ++ ".state" = (attr ++ ".") ++ (s ++ ".state") := by
  rw [str_append_assoc]

theorem contains_metricEntries_false (attr : String)
    (omc : Option AnomalibMetricCollection) (k : String)
    (h : ∀ s, attr ++ "." ++ s ++ ".state" ≠ k) :
    dictContains (metricStateEntries attr omc) k = false := by
  cases omc with
  | none => rfl
  | some mc =>
    rw [dictContains, List.any_eq_false]
    intro kv hkv
    simp only [metricStateEntries, List.mem_map] at hkv
    obtain ⟨o, _, hko⟩ := hkv
    simpa [← hko] using h o.cls.name

theorem optEntry_contains_false (k k' : String) (o : Option PyObj)
    (h : k ≠ k') : dictContains (optEntry k o) k' = false := by
  cases o <;> simp [optEntry, dictContains, h]

/-- A key of the pixel-metric block is never one of the three class
marker keys, and likewise for the image-metric block. -/
theorem pm_key_ne (s c : String)
    (h : c.data.take (("pixel_metrics." : String).data.length) ≠
      ("pixel_metrics." : String).data) :
    "pixel_metrics" ++ "." ++ s ++ ".state" ≠ c := by
  rw [metricEntry_key_eq]
  exact append_ne_of_take "pixel_metrics." c h (s ++ ".state")

theorem im_key_ne (s c : String)
    (h : c.data.take (("image_metrics." : String).data.length) ≠
      ("image_metrics." : String).data) :
    "image_metrics" ++ "." ++ s ++ ".state" ≠ c := by
  rw [metricEntry_key_eq]
  exact append_ne_of_take "image_metrics." c h (s ++ ".state")

theorem pm_startsWith_pixel (s : String) :
    pyStartsWith ("pixel_metrics" ++ "." ++ s ++ ".state")
      ("pixel" ++ "_metrics") = true := by
  have hp : ("pixel" ++ "_metrics" : String) = "pixel_metrics" := by decide
  rw [hp, metricEntry_key_eq, str_append_assoc]
  exact pyStartsWith_append_self "pixel_metrics" _

theorem im_startsWith_image (s : String) :
    pyStartsWith ("image_metrics" ++ "." ++ s ++ ".state")
      ("image" ++ "_metrics") = true := by
  have hp : ("image" ++ "_metrics" : String) = "image_metrics" := by decide
  rw [hp, metricEntry_key_eq, str_append_assoc]
  exact pyStartsWith_append_self "image_metrics" _

theorem im_startsWith_pixel (s : String) :
    pyStartsWith ("image_metrics" ++ "." ++ s ++ ".state")
      ("pixel" ++ "_metrics") = false := by
  have hp : ("pixel" ++ "_metrics" : String) = "pixel_metrics" := by decide
  rw [hp, metricEntry_key_eq]
  exact pyStartsWith_eq_false_of_take "image_metrics." (s ++ ".state")
    "pixel_metrics" (by decide) (by decide)

theorem pm_startsWith_image (s : String) :
    pyStartsWith ("pixel_metrics" ++ "." ++ s ++ ".state")
      ("image" ++ "_metrics") = false := by
  have hp : ("image" ++ "_metrics" : String) = "image_metrics" := by decide
  rw [hp, metricEntry_key_eq]
  exact pyStartsWith_eq_false_of_take "pixel_metrics." (s ++ ".state")
    "image_metrics" (by decide) (by decide)

theorem token_of_metricEntry (attr s : String)
    (hattr : '.' ∉ attr.data) (hs : '.' ∉ s.data) :
    (pySplitDot (attr ++ "." ++ s ++ ".state"))[1]? = some s := by
  have hst : (".state" : String).data = '.' :: ("state" : String).data := rfl
  have hdata : (attr ++ "." ++ s ++ ".state").data =
      attr.data ++ '.' :: (s.data ++ '.' :: ("state" : String).data) := by
    simp [data_append', hst, List.append_assoc]
  rw [pySplitDot, hdata, splitDots_append, splitDots_no_dot attr.data hattr,
    splitDots_append, splitDots_no_dot s.data hs,
    splitDots_no_dot ("state" : String).data (by decide)]
  rfl

/-! ### The metric passes on a saved mapping -/

theorem filter_pixel_keys (pm im : Option AnomalibMetricCollection) :
    ((metricStateEntries "pixel_metrics" pm
        ++ metricStateEntries "image_metrics" im).map Prod.fst).filter
      (fun k => pyStartsWith k ("pixel" ++ "_metrics")) =
      (metricStateEntries "pixel_metrics" pm).map Prod.fst := by
  rw [List.map_append, List.filter_append]
  have h1 : ((metricStateEntries "pixel_metrics" pm).map Prod.fst).filter
      (fun k => pyStartsWith k ("pixel" ++ "_metrics")) =
      (metricStateEntries "pixel_metrics" pm).map Prod.fst := by
    apply List.filter_eq_self.mpr
    intro k hk
    cases pm with
    | none => simp [metricStateEntries] at hk
    | some mc =>
      simp only [metricStateEntries, List.map_map, List.mem_map,
        Function.comp] at hk
      obtain ⟨o, _, hko⟩ := hk
      rw [← hko]
      exact pm_startsWith_pixel o.cls.name
  have h2 : ((metricStateEntries "image_metrics" im).map Prod.fst).filter
      (fun k => pyStartsWith k ("pixel" ++ "_metrics")) = [] := by
    apply List.filter_eq_nil_iff.mpr
    intro k hk
    cases im with
    | none => simp [metricStateEntries] at hk
    | some mc =>
      simp only [metricStateEntries, List.map_map, List.mem_map,
        Function.comp] at hk
      obtain ⟨o, _, hko⟩ := hk
      rw [← hko]
      intro hb
      rw [im_startsWith_pixel o.cls.name] at hb
      exact Bool.false_ne_true hb
  rw [h1, h2, List.append_nil]

theorem filter_image_keys (pm im : Option AnomalibMetricCollection) :
    ((metricStateEntries "pixel_metrics" pm
        ++ metricStateEntries "image_metrics" im).map Prod.fst).filter
      (fun k => pyStartsWith k ("image" ++ "_metrics")) =
      (metricStateEntries "image_metrics" im).map Prod.fst := by
  rw [List.map_append, List.filter_append]
  have h1 : ((metricStateEntries "pixel_metrics" pm).map Prod.fst).filter
      (fun k => pyStartsWith k ("image" ++ "_metrics")) = [] := by
    apply List.filter_eq_nil_iff.mpr
    intro k hk
    cases pm with
    | none => simp [metricStateEntries] at hk
    | some mc =>
      simp only [metricStateEntries, List.map_map, List.mem_map,
        Function.comp] at hk
      obtain ⟨o, _, hko⟩ := hk
      rw [← hko]
      intro hb
      rw [pm_startsWith_image o.cls.name] at hb
      exact Bool.false_ne_true hb
  have h2 : ((metricStateEntries "image_metrics" im).map Prod.fst).filter
      (fun k => pyStartsWith k ("image" ++ "_metrics")) =
      (metricStateEntries "image_metrics" im).map Prod.fst := by
    apply List.filter_eq_self.mpr
    intro k hk
    cases im with
    | none => simp [metricStateEntries] at hk
    | some mc =>
      simp only [metricStateEntries, List.map_map, List.mem_map,
        Function.comp] at hk
      obtain ⟨o, _, hko⟩ := hk
      rw [← hko]
      exact im_startsWith_image o.cls.name
  rw [h1, h2, List.nil_append]

/-- A metric instance whose class-name token can be looked up again in
the metrics namespace (not necessarily to the same class). -/
def metricResolvable (env : Env) (o : PyObj) : Prop :=
  '.' ∉ o.cls.name.data ∧ ∃ c, resolveMetric env o.cls.name = Except.ok c

/-- A metric instance whose class-name token resolves back to exactly
its own class. -/
def metricRestorable (env : Env) (o : PyObj) : Prop :=
  '.' ∉ o.cls.name.data ∧ resolveMetric env o.cls.name = Except.ok o.cls

theorem keysResolve_of_metricEntries (env : Env) (attr : String)
    (omc : Option AnomalibMetricCollection) (hattr : '.' ∉ attr.data)
    (h : ∀ mc, omc = some mc → ∀ o ∈ mc.metrics, metricResolvable env o) :
    keysResolve env ((metricStateEntries attr omc).map Prod.fst) := by
  intro k hk
  cases omc with
  | none => simp [metricStateEntries] at hk
  | some mc =>
    simp only [metricStateEntries, List.map_map, List.mem_map,
      Function.comp] at hk
    obtain ⟨o, ho, hko⟩ := hk
    obtain ⟨hdot, c, hc⟩ := h mc rfl o ho
    exact ⟨o.cls.name, c, hko ▸ token_of_metricEntry attr o.cls.name hattr hdot, hc⟩

theorem _add_metrics_ok_of_keysResolve (env : Env) (m : AnomalyModule)
    (name : String) (sd : StateDict)
    (hres : keysResolve env ((sd.map Prod.fst).filter
      (fun k => pyStartsWith k (name ++ "_metrics")))) :
    ∃ m', _add_metrics env m name sd = Except.ok m' := by
  by_cases hfil : (sd.map Prod.fst).filter
      (fun k => pyStartsWith k (name ++ "_metrics")) = []
  · exact ⟨m, _add_metrics_no_keys env m name sd hfil⟩
  · exact ⟨_, _add_metrics_eq_of_resolve env m name sd hfil hres⟩

theorem _load_metrics_ok (env : Env) (m : AnomalyModule) (sd : StateDict)
    (hp : keysResolve env ((sd.map Prod.fst).filter
      (fun k => pyStartsWith k ("pixel" ++ "_metrics"))))
    (hi : keysResolve env ((sd.map Prod.fst).filter
      (fun k => pyStartsWith k ("image" ++ "_metrics")))) :
    ∃ m', _load_metrics env m sd = Except.ok m' ∧
      m'.image_threshold = m.image_threshold ∧
      m'.pixel_threshold = m.pixel_threshold ∧
      m'.normalization_metrics = m.normalization_metrics := by
  obtain ⟨m1, h1⟩ := _add_metrics_ok_of_keysResolve env m "pixel" sd hp
  obtain ⟨m2, h2⟩ := _add_metrics_ok_of_keysResolve env m1 "image" sd hi
  obtain ⟨p1, p2, p3⟩ := _add_metrics_ok_preserves env m "pixel" sd m1 h1
  obtain ⟨q1, q2, q3⟩ := _add_metrics_ok_preserves env m1 "image" sd m2 h2
  refine ⟨m2, ?_, q1.trans p1, q2.trans p2, q3.trans p3⟩
  simp only [_load_metrics, Bind.bind, Except.bind, h1]
  exact h2

theorem contains_metric_blocks_false (pm im : Option AnomalibMetricCollection)
    (k : String)
    (hp : ∀ s, "pixel_metrics" ++ "." ++ s ++ ".state" ≠ k)
    (hi : ∀ s, "image_metrics" ++ "." ++ s ++ ".state" ≠ k) :
    dictContains (metricStateEntries "pixel_metrics" pm
      ++ metricStateEntries "image_metrics" im) k = false := by
  rw [dictContains_append,
    contains_metricEntries_false "pixel_metrics" pm k hp,
    contains_metricEntries_false "image_metrics" im k hi]
  rfl

theorem popClassKey_optEntry (env : Env) (k : String) (o : Option PyObj)
    (rest : StateDict) (hrest : dictContains rest k = false)
    (hres : ∀ t, o = some t →
      resolvePath env (classPath t.cls) = Except.ok t.cls) :
    popClassKey env (optEntry k o ++ rest) k =
      Except.ok (o.map (fun t => PyObj.mk t.cls), rest) := by
  cases o with
  | none =>
    simp only [optEntry, List.nil_append, Option.map_none']
    exact popClassKey_not_contains env rest k hrest
  | some t =>
    have hget : dictGet? (optEntry k (some t) ++ rest) k =
        some (StateVal.str (classPath t.cls)) := by
      simp [optEntry, dictGet?, List.find?_cons_of_pos]
    rw [popClassKey_resolved env _ k _ t.cls hget (hres t rfl)]
    simp [optEntry, dictErase]

/-! ### The save-then-load round trip -/

/-- A class whose recorded dotted path resolves back to exactly itself:
its name has no dot, its module is importable, and the module's
attribute of that name is the class. -/
def classResolvable (env : Env) (c : PyClass) : Prop :=
  '.' ∉ c.name.data ∧
    ∃ md, import_module env c.module = Except.ok md ∧
      getattrCls md c.name = Except.ok c

theorem resolvePath_of_classResolvable (env : Env) (c : PyClass)
    (h : classResolvable env c) :
    resolvePath env (classPath c) = Except.ok c := by
  obtain ⟨hdot, md, him, hattr⟩ := h
  rw [resolvePath_classPath env c hdot]
  simp only [him]
  exact hattr

/-- The environment can rebuild every dynamically-typed component the
instance currently holds. -/
def moduleSavable (env : Env) (m : AnomalyModule) : Prop :=
  (∀ t, m.image_threshold = some t → classResolvable env t.cls) ∧
    (∀ t, m.pixel_threshold = some t → classResolvable env t.cls) ∧
    (∀ t, m.normalization_metrics = some t → classResolvable env t.cls) ∧
    (∀ mc, m.pixel_metrics = some mc →
      ∀ o ∈ mc.metrics, metricResolvable env o) ∧
    (∀ mc, m.image_metrics = some mc →
      ∀ o ∈ mc.metrics, metricResolvable env o)

theorem load_saved_frame (env : Env) (m fresh : AnomalyModule)
    (strict : Bool)
    (h1 : ∀ t, m.image_threshold = some t → classResolvable env t.cls)
    (h2 : ∀ t, m.pixel_threshold = some t → classResolvable env t.cls)
    (h3 : ∀ t, m.normalization_metrics = some t → classResolvable env t.cls)
    (m4 : AnomalyModule)
    (hlm : _load_metrics env
      { fresh with
        image_threshold := (m.image_threshold.map
          (fun t => PyObj.mk t.cls)).or fresh.image_threshold
        pixel_threshold := (m.pixel_threshold.map
          (fun t => PyObj.mk t.cls)).or fresh.pixel_threshold
        normalization_metrics := (m.normalization_metrics.map
          (fun t => PyObj.mk t.cls)).or fresh.normalization_metrics }
      (metricStateEntries "pixel_metrics" m.pixel_metrics
        ++ metricStateEntries "image_metrics" m.image_metrics) =
      Except.ok m4) :
    load_state_dict env fresh (state_dict m) strict =
      Except.ok (m4, metricStateEntries "pixel_metrics" m.pixel_metrics
        ++ metricStateEntries "image_metrics" m.image_metrics) := by
  have hc1 : dictContains (metricStateEntries "pixel_metrics" m.pixel_metrics
      ++ metricStateEntries "image_metrics" m.image_metrics)
      "image_threshold_class" = false :=
    contains_metric_blocks_false _ _ _
      (fun s => pm_key_ne s _ (by decide)) (fun s => im_key_ne s _ (by decide))
  have hc2 : dictContains (metricStateEntries "pixel_metrics" m.pixel_metrics
      ++ metricStateEntries "image_metrics" m.image_metrics)
      "pixel_threshold_class" = false :=
    contains_metric_blocks_false _ _ _
      (fun s => pm_key_ne s _ (by decide)) (fun s => im_key_ne s _ (by decide))
  have hc3 : dictContains (metricStateEntries "pixel_metrics" m.pixel_metrics
      ++ metricStateEntries "image_metrics" m.image_metrics)
      "normalization_class" = false :=
    contains_metric_blocks_false _ _ _
      (fun s => pm_key_ne s _ (by decide)) (fun s => im_key_ne s _ (by decide))
  have hr2 : dictContains (optEntry "normalization_class" m.normalization_metrics
      ++ (metricStateEntries "pixel_metrics" m.pixel_metrics
        ++ metricStateEntries "image_metrics" m.image_metrics))
      "pixel_threshold_class" = false := by
    rw [dictContains_append,
      optEntry_contains_false _ _ _ (by decide), hc2]
    rfl
  have hr1 : dictContains (optEntry "pixel_threshold_class" m.pixel_threshold
      ++ (optEntry "normalization_class" m.normalization_metrics
        ++ (metricStateEntries "pixel_metrics" m.pixel_metrics
          ++ metricStateEntries "image_metrics" m.image_metrics)))
      "image_threshold_class" = false := by
    rw [dictContains_append, optEntry_contains_false _ _ _ (by decide),
      dictContains_append, optEntry_contains_false _ _ _ (by decide), hc1]
    rfl
  have e1 : popClassKey env
      (optEntry "image_threshold_class" m.image_threshold
        ++ (optEntry "pixel_threshold_class" m.pixel_threshold
          ++ (optEntry "normalization_class" m.normalization_metrics
            ++ (metricStateEntries "pixel_metrics" m.pixel_metrics
              ++ metricStateEntries "image_metrics" m.image_metrics))))
      "image_threshold_class" =
      Except.ok (m.image_threshold.map (fun t => PyObj.mk t.cls),
        optEntry "pixel_threshold_class" m.pixel_threshold
          ++ (optEntry "normalization_class" m.normalization_metrics
            ++ (metricStateEntries "pixel_metrics" m.pixel_metrics
              ++ metricStateEntries "image_metrics" m.image_metrics))) :=
    popClassKey_optEntry env _ _ _ hr1
      (fun t ht => resolvePath_of_classResolvable env t.cls (h1 t ht))
  have e2 : popClassKey env
      (optEntry "pixel_threshold_class" m.pixel_threshold
        ++ (optEntry "normalization_class" m.normalization_metrics
          ++ (metricStateEntries "pixel_metrics" m.pixel_metrics
            ++ metricStateEntries "image_metrics" m.image_metrics)))
      "pixel_threshold_class" =
      Except.ok (m.pixel_threshold.map (fun t => PyObj.mk t.cls),
        optEntry "normalization_class" m.normalization_metrics
          ++ (metricStateEntries "pixel_metrics" m.pixel_metrics
            ++ metricStateEntries "image_metrics" m.image_metrics)) :=
    popClassKey_optEntry env _ _ _ hr2
      (fun t ht => resolvePath_of_classResolvable env t.cls (h2 t ht))
  have e3 : popClassKey env
      (optEntry "normalization_class" m.normalization_metrics
        ++ (metricStateEntries "pixel_metrics" m.pixel_metrics
          ++ metricStateEntries "image_metrics" m.image_metrics))
      "normalization_class" =
      Except.ok (m.normalization_metrics.map (fun t => PyObj.mk t.cls),
        metricStateEntries "pixel_metrics" m.pixel_metrics
          ++ metricStateEntries "image_metrics" m.image_metrics) :=
    popClassKey_optEntry env _ _ _ hc3
      (fun t ht => resolvePath_of_classResolvable env t.cls (h3 t ht))
  rw [load_state_dict_eq, state_dict_eq]
  simp only [Bind.bind, Except.bind, e1, e2, e3, hlm, superLoadStateDict]

theorem load_state_dict_of_saved (env : Env) (m fresh : AnomalyModule)
    (strict : Bool) (h : moduleSavable env m) :
    ∃ m', load_state_dict env fresh (state_dict m) strict =
        Except.ok (m', metricStateEntries "pixel_metrics" m.pixel_metrics
          ++ metricStateEntries "image_metrics" m.image_metrics) ∧
      m'.image_threshold = ((m.image_threshold.map
        (fun t => PyObj.mk t.cls)).or fresh.image_threshold) ∧
      m'.pixel_threshold = ((m.pixel_threshold.map
        (fun t => PyObj.mk t.cls)).or fresh.pixel_threshold) ∧
      m'.normalization_metrics = ((m.normalization_metrics.map
        (fun t => PyObj.mk t.cls)).or fresh.normalization_metrics) := by
  obtain ⟨h1, h2, h3, h4, h5⟩ := h
  have hkrp : keysResolve env
      (((metricStateEntries "pixel_metrics" m.pixel_metrics
        ++ metricStateEntries "image_metrics" m.image_metrics).map
          Prod.fst).filter
        (fun k => pyStartsWith k ("pixel" ++ "_metrics"))) := by
    rw [filter_pixel_keys]
    exact keysResolve_of_metricEntries env "pixel_metrics" m.pixel_metrics
      (by decide) h4
  have hkri : keysResolve env
      (((metricStateEntries "pixel_metrics" m.pixel_metrics
        ++ metricStateEntries "image_metrics" m.image_metrics).map
          Prod.fst).filter
        (fun k => pyStartsWith k ("image" ++ "_metrics"))) := by
    rw [filter_image_keys]
    exact keysResolve_of_metricEntries env "image_metrics" m.image_metrics
      (by decide) h5
  obtain ⟨m4, hlm, hp1, hp2, hp3⟩ := _load_metrics_ok env
    { fresh with
      image_threshold := (m.image_threshold.map
        (fun t => PyObj.mk t.cls)).or fresh.image_threshold
      pixel_threshold := (m.pixel_threshold.map
        (fun t => PyObj.mk t.cls)).or fresh.pixel_threshold
      normalization_metrics := (m.normalization_metrics.map
        (fun t => PyObj.mk t.cls)).or fresh.normalization_metrics }
    (metricStateEntries "pixel_metrics" m.pixel_metrics
      ++ metricStateEntries "image_metrics" m.image_metrics) hkrp hkri
  exact ⟨m4, load_saved_frame env m fresh strict h1 h2 h3 m4 hlm,
    hp1, hp2, hp3⟩

/-! ### Claim theorems -/

/-- C4: for every batch `b`, batch index `i`, and dataloader index `d`,
`test_step b i` returns exactly `predict_step b i` (with the default
dataloader index), and `predict_step b i d` returns exactly
`validation_step b i` regardless of `d`: the one-directional delegation
chain test → predict → validate converging on the subclass-supplied
validation step `vstep`. -/
theorem step_delegation_chain {O : Type}
    (vstep : Batch → Nat → Except PyError O)
    (batch : Batch) (batch_idx dataloader_idx : Nat) :
    test_step vstep batch batch_idx = predict_step vstep batch batch_idx 0 ∧
      predict_step vstep batch batch_idx dataloader_idx =
        vstep batch batch_idx := ⟨rfl, rfl⟩

/-- C7: calling `validation_step`, reading `trainer_arguments`, or
reading `learning_type` on the base `AnomalyModule` (no subclass
override) always fails with `NotImplementedError`, for every input. -/
theorem base_contract_not_implemented (m : AnomalyModule) (batch : Batch)
    (batch_idx : Nat) :
    validation_step m batch batch_idx =
        Except.error PyError.notImplementedError ∧
      trainer_arguments m = Except.error PyError.notImplementedError ∧
      learning_type m = Except.error PyError.notImplementedError :=
  ⟨rfl, rfl, rfl⟩

/-- C8: the test harness selects the task type by a fixed lookup on the
model name (detection for `rkde`/`ai_vad`, classification for
`ganomaly`/`dfkde`, segmentation otherwise), applies the fixed keyword
overrides (`input_size` for `patchcore`, `n_pca_components` for
`rkde`/`dfkde`, nothing otherwise), and skips the known-unsupported
export combinations with a stated reason. -/
theorem harness_per_model_lookup :
    selectTaskType "rkde" = TaskType.DETECTION ∧
      selectTaskType "ai_vad" = TaskType.DETECTION ∧
      selectTaskType "ganomaly" = TaskType.CLASSIFICATION ∧
      selectTaskType "dfkde" = TaskType.CLASSIFICATION ∧
      (∀ name : String, name ∉ ["rkde", "ai_vad", "ganomaly", "dfkde"] →
        selectTaskType name = TaskType.SEGMENTATION) ∧
      extraModelArgs "patchcore" = [("input_size", ArgVal.size 256 256)] ∧
      extraModelArgs "rkde" = [("n_pca_components", ArgVal.nat 2)] ∧
      extraModelArgs "dfkde" = [("n_pca_components", ArgVal.nat 2)] ∧
      (∀ name : String, name ∉ ["patchcore", "rkde", "dfkde"] →
        extraModelArgs name = []) ∧
      exportDecision "reverse_distillation" =
        ExportDecision.skip "Reverse distillation fails to convert to ONNX" ∧
      exportDecision "ai_vad" =
        ExportDecision.skip "Export fails for video models." := by
  refine ⟨by decide, by decide, by decide, by decide, ?_, by decide,
    by decide, by decide, ?_, by decide, by decide⟩
  · intro name hname
    simp only [List.mem_cons, List.not_mem_nil, or_false, not_or] at hname
    obtain ⟨n1, n2, n3, n4⟩ := hname
    rw [selectTaskType, if_neg (by simp [n1, n2]), if_neg (by simp [n3, n4])]
  · intro name hname
    simp only [List.mem_cons, List.not_mem_nil, or_false, not_or] at hname
    obtain ⟨n1, n2, n3⟩ := hname
    rw [extraModelArgs, if_neg n1, if_neg (by simp [n2, n3])]

/-- Closed instance of the `C8` lookup theorem at the model name
`"padim"`, discharging both default-case hypotheses. -/
theorem harness_per_model_lookup_witness :
    selectTaskType "padim" = TaskType.SEGMENTATION ∧
      extraModelArgs "padim" = [] :=
  ⟨harness_per_model_lookup.2.2.2.2.1 "padim" (by decide),
    harness_per_model_lookup.2.2.2.2.2.2.2.2.1 "padim" (by decide)⟩

theorem dictGet?_not_contains (sd : StateDict) (k : String)
    (h : dictContains sd k = false) : dictGet? sd k = none := by
  induction sd with
  | nil => rfl
  | cons kv rest ih =>
    simp only [dictContains, List.any_cons, Bool.or_eq_false_iff] at h
    rw [dictGet?, List.find?_cons_of_neg _ (by simpa using h.1)]
    exact ih (by simpa [dictContains] using h.2)

theorem dictGet?_append_left_none (a b : StateDict) (k : String)
    (h : dictContains a k = false) : dictGet? (a ++ b) k = dictGet? b k := by
  induction a with
  | nil => rfl
  | cons kv rest ih =>
    simp only [dictContains, List.any_cons, Bool.or_eq_false_iff] at h
    rw [List.cons_append, dictGet?,
      List.find?_cons_of_neg _ (by simpa using h.1)]
    exact ih (by simpa [dictContains] using h.2)

theorem dictGet?_cons_self (k : String) (v : StateVal) (rest : StateDict) :
    dictGet? ((k, v) :: rest) k = some v := by
  rw [dictGet?, List.find?_cons_of_pos _ (by simp)]
  rfl

theorem optEntry_none (k : String) : optEntry k none = [] := rfl

theorem optEntry_some (k : String) (t : PyObj) :
    optEntry k (some t) = [(k, StateVal.str (classPath t.cls))] := rfl

/-- C6: `_save_to_state_dict` (as invoked by `state_dict` on a fresh
destination) records `image_threshold_class` / `pixel_threshold_class` /
`normalization_class` holding the dotted class path exactly when the
corresponding attribute exists — an absent attribute yields no entry and
no error — and the result is the framework's own save routine applied
afterwards to the augmented destination, whose marker keys mirror
attribute presence. -/
theorem save_records_class_markers (m : AnomalyModule) :
    dictGet? (state_dict m) "image_threshold_class" =
        m.image_threshold.map (fun t => StateVal.str (classPath t.cls)) ∧
      dictGet? (state_dict m) "pixel_threshold_class" =
        m.pixel_threshold.map (fun t => StateVal.str (classPath t.cls)) ∧
      dictGet? (state_dict m) "normalization_class" =
        m.normalization_metrics.map (fun t => StateVal.str (classPath t.cls)) ∧
      ∃ d, state_dict m = superSaveToStateDict m d "" false ∧
        dictContains d "image_threshold_class" = m.image_threshold.isSome ∧
        dictContains d "pixel_threshold_class" = m.pixel_threshold.isSome ∧
        dictContains d "normalization_class" = m.normalization_metrics.isSome := by
  have hmb1 : dictContains (metricStateEntries "pixel_metrics" m.pixel_metrics
      ++ metricStateEntries "image_metrics" m.image_metrics)
      "image_threshold_class" = false :=
    contains_metric_blocks_false _ _ _
      (fun s => pm_key_ne s _ (by decide)) (fun s => im_key_ne s _ (by decide))
  have hmb2 : dictContains (metricStateEntries "pixel_metrics" m.pixel_metrics
      ++ metricStateEntries "image_metrics" m.image_metrics)
      "pixel_threshold_class" = false :=
    contains_metric_blocks_false _ _ _
      (fun s => pm_key_ne s _ (by decide)) (fun s => im_key_ne s _ (by decide))
  have hmb3 : dictContains (metricStateEntries "pixel_metrics" m.pixel_metrics
      ++ metricStateEntries "image_metrics" m.image_metrics)
      "normalization_class" = false :=
    contains_metric_blocks_false _ _ _
      (fun s => pm_key_ne s _ (by decide)) (fun s => im_key_ne s _ (by decide))
  refine ⟨?_, ?_, ?_,
    optEntry "image_threshold_class" m.image_threshold ++
      (optEntry "pixel_threshold_class" m.pixel_threshold ++
        optEntry "normalization_class" m.normalization_metrics), ?_, ?_, ?_, ?_⟩
  · rw [state_dict_eq]
    cases hit : m.image_threshold with
    | some t => simp [optEntry_some, dictGet?_cons_self]
    | none =>
      rw [optEntry_none, List.nil_append,
        dictGet?_append_left_none _ _ _ (optEntry_contains_false
          "pixel_threshold_class" "image_threshold_class" _ (by decide)),
        dictGet?_append_left_none _ _ _ (optEntry_contains_false
          "normalization_class" "image_threshold_class" _ (by decide)),
        dictGet?_not_contains _ _ hmb1]
      rfl
  · rw [state_dict_eq,
      dictGet?_append_left_none _ _ _ (optEntry_contains_false
        "image_threshold_class" "pixel_threshold_class" _ (by decide))]
    cases hpt : m.pixel_threshold with
    | some t => simp [optEntry_some, dictGet?_cons_self]
    | none =>
      rw [optEntry_none, List.nil_append,
        dictGet?_append_left_none _ _ _ (optEntry_contains_false
          "normalization_class" "pixel_threshold_class" _ (by decide)),
        dictGet?_not_contains _ _ hmb2]
      rfl
  · rw [state_dict_eq,
      dictGet?_append_left_none _ _ _ (optEntry_contains_false
        "image_threshold_class" "normalization_class" _ (by decide)),
      dictGet?_append_left_none _ _ _ (optEntry_contains_false
        "pixel_threshold_class" "normalization_class" _ (by decide))]
    cases hnm : m.normalization_metrics with
    | some t => simp [optEntry_some, dictGet?_cons_self]
    | none =>
      rw [optEntry_none, List.nil_append, dictGet?_not_contains _ _ hmb3]
      rfl
  · rw [state_dict_eq, superSaveToStateDict]
    simp [List.append_assoc]
  · rw [dictContains_append, dictContains_append,
      optEntry_contains_false "pixel_threshold_class"
        "image_threshold_class" _ (by decide),
      optEntry_contains_false "normalization_class"
        "image_threshold_class" _ (by decide)]
    cases m.image_threshold with
    | some t => simp [optEntry_some, dictContains]
    | none => simp [optEntry_none, dictContains]
  · rw [dictContains_append, dictContains_append,
      optEntry_contains_false "image_threshold_class"
        "pixel_threshold_class" _ (by decide),
      optEntry_contains_false "normalization_class"
        "pixel_threshold_class" _ (by decide)]
    cases m.pixel_threshold with
    | some t => simp [optEntry_some, dictContains]
    | none => simp [optEntry_none, dictContains]
  · rw [dictContains_append, dictContains_append,
      optEntry_contains_false "image_threshold_class"
        "normalization_class" _ (by decide),
      optEntry_contains_false "pixel_threshold_class"
        "normalization_class" _ (by decide)]
    cases m.normalization_metrics with
    | some t => simp [optEntry_some, dictContains]
    | none => simp [optEntry_none, dictContains]

/-- C9: a state mapping holding a key that starts with `pixel_metrics`
but has no second dot-separated segment makes metric reconstruction fail
with Python's `IndexError` from `key.split(".")[1]` — not with the
import-kind error used for unresolvable class names. -/
theorem malformed_metric_key_index_error (env : Env) (m : AnomalyModule)
    (k : String) (v : StateVal)
    (hpref : pyStartsWith k ("pixel" ++ "_metrics") = true)
    (hseg : (pySplitDot k)[1]? = none) :
    load_state_dict env m [(k, v)] true = Except.error PyError.indexError ∧
      PyError.indexError.isImportKind = false := by
  have hk1 : ¬(k = "image_threshold_class") := by
    intro he
    rw [he] at hpref
    exact absurd hpref (by decide)
  have hk2 : ¬(k = "pixel_threshold_class") := by
    intro he
    rw [he] at hpref
    exact absurd hpref (by decide)
  have hk3 : ¬(k = "normalization_class") := by
    intro he
    rw [he] at hpref
    exact absurd hpref (by decide)
  have hc1 : dictContains [(k, v)] "image_threshold_class" = false := by
    simp [dictContains, hk1]
  have hc2 : dictContains [(k, v)] "pixel_threshold_class" = false := by
    simp [dictContains, hk2]
  have hc3 : dictContains [(k, v)] "normalization_class" = false := by
    simp [dictContains, hk3]
  have hfil : ([(k, v)].map Prod.fst).filter
      (fun k' => pyStartsWith k' ("pixel" ++ "_metrics")) = [k] := by
    simp only [List.map_cons, List.map_nil, List.filter_cons, hpref,
      List.filter_nil]
    rfl
  have hlm : ∀ M : AnomalyModule,
      _load_metrics env M [(k, v)] = Except.error PyError.indexError := by
    intro M
    simp [_load_metrics, Bind.bind, Except.bind,
      _add_metrics_index_error env M "pixel" [(k, v)] k [] hfil hseg]
  rw [load_state_dict_eq]
  simp only [Bind.bind, Except.bind,
    popClassKey_not_contains env [(k, v)] _ hc1,
    popClassKey_not_contains env [(k, v)] _ hc2,
    popClassKey_not_contains env [(k, v)] _ hc3, hlm]
  exact ⟨trivial, rfl⟩

/-- Closed instance of the `C9` theorem at the one-segment key
`"pixel_metrics"` itself. -/
theorem malformed_metric_key_index_error_witness :
    load_state_dict [] AnomalyModule.empty
        [("pixel_metrics", StateVal.tensor)] true =
        Except.error PyError.indexError ∧
      PyError.indexError.isImportKind = false :=
  malformed_metric_key_index_error [] AnomalyModule.empty "pixel_metrics"
    StateVal.tensor (by decide) (by decide)

theorem dictContains_singleton (k c : String) (v : StateVal) (h : ¬(k = c)) :
    dictContains [(k, v)] c = false := by
  simp [dictContains, h]

/-- Counterexample to C2 as stated: with module `"m"` importable but
lacking attribute `"Missing"`, loading a state whose
`image_threshold_class` names `"m.Missing"` fails with the raw
`AttributeError` from `getattr` — `_get_instance` has no handler — not
with an import-kind error carrying the class name. -/
theorem load_resolution_attribute_error_cex :
    load_state_dict [PyModuleDef.mk "m" []] AnomalyModule.empty
        [("image_threshold_class", StateVal.str "m.Missing")] true =
        Except.error (PyError.attributeError "m" "Missing") ∧
      (PyError.attributeError "m" "Missing").isImportKind = false :=
  ⟨rfl, rfl⟩

/-- C2 (amended): resolution failure during `load_state_dict` is never
silently skipped, but the error shape differs by key kind.  For the
three `*_class` marker keys the original lookup failure
(`ModuleNotFoundError` or `AttributeError`) propagates uncaught and
unchanged; only for `pixel_metrics`/`image_metrics` keys is the failure
caught and re-raised as an `ImportError` naming the class, chained from
the original cause. -/
theorem load_resolution_failure_modes :
    (∀ (env : Env) (m : AnomalyModule) (p : String) (e : PyError),
      resolvePath env p = Except.error e →
      load_state_dict env m [("image_threshold_class", StateVal.str p)] true =
        Except.error e) ∧
      (∀ (env : Env) (m : AnomalyModule) (nm : String) (e : PyError),
        '.' ∉ nm.data →
        resolveMetric env nm = Except.error e →
        load_state_dict env m
          [("image_metrics" ++ "." ++ nm ++ ".state", StateVal.tensor)] true =
          Except.error (PyError.importError
            ("Class " ++ nm ++ " not found in module anomalib.metrics") e)) := by
  constructor
  · intro env m p e hres
    rw [load_state_dict_eq]
    simp only [Bind.bind, Except.bind,
      popClassKey_error env _ "image_threshold_class" p e
        (dictGet?_cons_self "image_threshold_class" (StateVal.str p) []) hres]
  · intro env m nm e hdot hres
    have hc1 : dictContains
        [("image_metrics" ++ "." ++ nm ++ ".state", StateVal.tensor)]
        "image_threshold_class" = false :=
      dictContains_singleton _ _ _ (im_key_ne nm _ (by decide))
    have hc2 : dictContains
        [("image_metrics" ++ "." ++ nm ++ ".state", StateVal.tensor)]
        "pixel_threshold_class" = false :=
      dictContains_singleton _ _ _ (im_key_ne nm _ (by decide))
    have hc3 : dictContains
        [("image_metrics" ++ "." ++ nm ++ ".state", StateVal.tensor)]
        "normalization_class" = false :=
      dictContains_singleton _ _ _ (im_key_ne nm _ (by decide))
    have hfp : ([("image_metrics" ++ "." ++ nm ++ ".state",
        StateVal.tensor)].map Prod.fst).filter
        (fun k' => pyStartsWith k' ("pixel" ++ "_metrics")) = [] := by
      simp only [List.map_cons, List.map_nil, List.filter_cons,
        im_startsWith_pixel nm, List.filter_nil]
      rfl
    have hfi : ([("image_metrics" ++ "." ++ nm ++ ".state",
        StateVal.tensor)].map Prod.fst).filter
        (fun k' => pyStartsWith k' ("image" ++ "_metrics")) =
        ["image_metrics" ++ "." ++ nm ++ ".state"] := by
      simp only [List.map_cons, List.map_nil, List.filter_cons,
        im_startsWith_image nm, List.filter_nil]
      rfl
    have htok : (pySplitDot ("image_metrics" ++ "." ++ nm ++ ".state"))[1]? =
        some nm := token_of_metricEntry "image_metrics" nm (by decide) hdot
    have hlm : ∀ M : AnomalyModule,
        _load_metrics env M
          [("image_metrics" ++ "." ++ nm ++ ".state", StateVal.tensor)] =
          Except.error (PyError.importError
            ("Class " ++ nm ++ " not found in module anomalib.metrics") e) := by
      intro M
      have h1 := _add_metrics_no_keys env M "pixel"
        [("image_metrics" ++ "." ++ nm ++ ".state", StateVal.tensor)] hfp
      have h2 := _add_metrics_import_error env M "image"
        [("image_metrics" ++ "." ++ nm ++ ".state", StateVal.tensor)]
        ("image_metrics" ++ "." ++ nm ++ ".state") [] nm e hfi htok hres
      simp only [_load_metrics, Bind.bind, Except.bind, h1]
      exact h2
    rw [load_state_dict_eq]
    simp only [Bind.bind, Except.bind,
      popClassKey_not_contains env _ _ hc1,
      popClassKey_not_contains env _ _ hc2,
      popClassKey_not_contains env _ _ hc3, hlm]

/-- Closed instance of the amended `C2` theorem: an unimportable module
in a threshold path propagates as the raw `ModuleNotFoundError`, and an
unresolvable metric class name is re-raised as a chained `ImportError`
naming the class. -/
theorem load_resolution_failure_modes_witness :
    load_state_dict [] AnomalyModule.empty
        [("image_threshold_class", StateVal.str "a.B")] true =
        Except.error (PyError.moduleNotFound "a") ∧
      load_state_dict [] AnomalyModule.empty
        [("image_metrics" ++ "." ++ "AUROC" ++ ".state", StateVal.tensor)]
        true =
        Except.error (PyError.importError
          ("Class " ++ "AUROC" ++ " not found in module anomalib.metrics")
          (PyError.moduleNotFound "anomalib.metrics")) :=
  ⟨load_resolution_failure_modes.1 [] AnomalyModule.empty "a.B" _ rfl,
    load_resolution_failure_modes.2 [] AnomalyModule.empty "AUROC" _
      (by decide) rfl⟩

/-! ### Inversion of a successful load on an arbitrary mapping -/

theorem load_ok_inv (env : Env) (m : AnomalyModule) (sd : StateDict)
    (strict : Bool) (m' : AnomalyModule) (sd' : StateDict)
    (h : load_state_dict env m sd strict = Except.ok (m', sd')) :
    ∃ o1 o2 o3 m4,
      popClassKey env sd "image_threshold_class" =
        Except.ok (o1, dictErase sd "image_threshold_class") ∧
      popClassKey env (dictErase sd "image_threshold_class")
        "pixel_threshold_class" =
        Except.ok (o2, dictErase (dictErase sd "image_threshold_class")
          "pixel_threshold_class") ∧
      popClassKey env (dictErase (dictErase sd "image_threshold_class")
        "pixel_threshold_class") "normalization_class" =
        Except.ok (o3, dictErase (dictErase (dictErase sd
          "image_threshold_class") "pixel_threshold_class")
          "normalization_class") ∧
      _load_metrics env
        { m with
          image_threshold := o1.or m.image_threshold,
          pixel_threshold := o2.or m.pixel_threshold,
          normalization_metrics := o3.or m.normalization_metrics }
        (dictErase (dictErase (dictErase sd "image_threshold_class")
          "pixel_threshold_class") "normalization_class") =
        Except.ok m4 ∧
      m' = m4 ∧
      sd' = dictErase (dictErase (dictErase sd "image_threshold_class")
        "pixel_threshold_class") "normalization_class" := by
  rw [load_state_dict_eq] at h
  simp only [Bind.bind, Except.bind] at h
  cases p1 : popClassKey env sd "image_threshold_class" with
  | error e => simp [p1] at h
  | ok pr1 =>
    obtain ⟨o1, sd1⟩ := pr1
    have hsd1 : sd1 = dictErase sd "image_threshold_class" :=
      popClassKey_ok_inv env sd _ o1 sd1 p1
    subst hsd1
    simp only [p1] at h
    cases p2 : popClassKey env (dictErase sd "image_threshold_class")
        "pixel_threshold_class" with
    | error e => simp [p2] at h
    | ok pr2 =>
      obtain ⟨o2, sd2⟩ := pr2
      have hsd2 : sd2 = dictErase (dictErase sd "image_threshold_class")
          "pixel_threshold_class" :=
        popClassKey_ok_inv env _ _ o2 sd2 p2
      subst hsd2
      simp only [p2] at h
      cases p3 : popClassKey env (dictErase (dictErase sd
          "image_threshold_class") "pixel_threshold_class")
          "normalization_class" with
      | error e => simp [p3] at h
      | ok pr3 =>
        obtain ⟨o3, sd3⟩ := pr3
        have hsd3 : sd3 = dictErase (dictErase (dictErase sd
            "image_threshold_class") "pixel_threshold_class")
            "normalization_class" :=
          popClassKey_ok_inv env _ _ o3 sd3 p3
        subst hsd3
        simp only [p3] at h
        cases lm : _load_metrics env
            { m with
              image_threshold := o1.or m.image_threshold,
              pixel_threshold := o2.or m.pixel_threshold,
              normalization_metrics := o3.or m.normalization_metrics }
            (dictErase (dictErase (dictErase sd "image_threshold_class")
              "pixel_threshold_class") "normalization_class") with
        | error e => simp [lm] at h
        | ok m4 =>
          simp only [lm, superLoadStateDict, Except.ok.injEq,
            Prod.mk.injEq] at h
          exact ⟨o1, o2, o3, m4, rfl, rfl, rfl, lm, h.1.symm, h.2.symm⟩

theorem dictGet?_dictErase_ne (sd : StateDict) (k k' : String) (h : k ≠ k') :
    dictGet? (dictErase sd k') k = dictGet? sd k := by
  induction sd with
  | nil => rfl
  | cons kv rest ih =>
    by_cases hk : kv.1 = k'
    · rw [dictErase, if_pos hk, dictGet?, dictGet?,
        List.find?_cons_of_neg _ (by
          simp only [hk, decide_eq_true_eq]
          exact fun he => h he.symm)]
    · rw [dictErase, if_neg hk]
      by_cases hkk : kv.1 = k
      · rw [dictGet?, dictGet?, List.find?_cons_of_pos _ (by simp [hkk]),
          List.find?_cons_of_pos _ (by simp [hkk])]
      · rw [dictGet?, dictGet?, List.find?_cons_of_neg _ (by simp [hkk]),
          List.find?_cons_of_neg _ (by simp [hkk])]
        exact ih

theorem dictContains_dictErase_ne (sd : StateDict) (k k' : String)
    (h : k ≠ k') :
    dictContains (dictErase sd k') k = dictContains sd k := by
  induction sd with
  | nil => rfl
  | cons kv rest ih =>
    by_cases hk : kv.1 = k'
    · rw [dictErase, if_pos hk]
      have hd : (decide (kv.1 = k)) = false := by
        simp only [hk, decide_eq_false_iff_not]
        exact fun he => h he.symm
      rw [dictContains, dictContains, List.any_cons, hd, Bool.false_or]
    · rw [dictErase, if_neg hk]
      rw [dictContains, dictContains, List.any_cons, List.any_cons]
      have he : List.any (dictErase rest k') (fun kv => decide (kv.1 = k)) =
          rest.any (fun kv => decide (kv.1 = k)) := ih
      rw [he]

theorem popClassKey_ok_obj (env : Env) (sd : StateDict) (k : String)
    (o : Option PyObj) (sd'' : StateDict)
    (h : popClassKey env sd k = Except.ok (o, sd'')) :
    (dictContains sd k = false → o = none) ∧
      (∀ p, dictGet? sd k = some (StateVal.str p) →
        ∃ c, resolvePath env p = Except.ok c ∧ o = some (PyObj.mk c)) := by
  constructor
  · intro hc
    rw [popClassKey_not_contains env sd k hc] at h
    simp only [Except.ok.injEq, Prod.mk.injEq] at h
    exact h.1.symm
  · intro p hget
    have hc : dictContains sd k = true := dictContains_of_get sd k _ hget
    rw [popClassKey, if_pos (by simp [hc])] at h
    cases hg : _get_instance env sd k with
    | error e => rw [hg] at h; exact absurd h (by simp)
    | ok q =>
      obtain ⟨o0, sd0⟩ := q
      rw [hg] at h
      simp only [Except.ok.injEq, Prod.mk.injEq] at h
      obtain ⟨_, p0, c, hget0, hres0, ho0⟩ :=
        _get_instance_ok_inv env sd k o0 sd0 hg
      have hp : p0 = p := by
        rw [hget0] at hget
        exact StateVal.str.inj (Option.some_inj.mp hget)
      subst hp
      exact ⟨c, hres0, by rw [← h.1, ho0]⟩

theorem _load_metrics_ok_preserves (env : Env) (M : AnomalyModule)
    (sd : StateDict) (m4 : AnomalyModule)
    (h : _load_metrics env M sd = Except.ok m4) :
    m4.image_threshold = M.image_threshold ∧
      m4.pixel_threshold = M.pixel_threshold ∧
      m4.normalization_metrics = M.normalization_metrics := by
  simp only [_load_metrics, Bind.bind, Except.bind] at h
  cases h1 : _add_metrics env M "pixel" sd with
  | error e => simp [h1] at h
  | ok M1 =>
    simp only [h1] at h
    obtain ⟨p1, p2, p3⟩ := _add_metrics_ok_preserves env M "pixel" sd M1 h1
    obtain ⟨q1, q2, q3⟩ := _add_metrics_ok_preserves env M1 "image" sd m4 h
    exact ⟨q1.trans p1, q2.trans p2, q3.trans p3⟩

/-- C10: a successful `load_state_dict` forwards to the framework's load
routine exactly the incoming mapping minus the three class marker keys;
every other binding — metric-prefixed or not — is still present in the
forwarded mapping. -/
theorem load_removes_only_class_markers (env : Env) (m : AnomalyModule)
    (sd : StateDict) (strict : Bool) (m' : AnomalyModule) (sd' : StateDict)
    (h : load_state_dict env m sd strict = Except.ok (m', sd')) :
    sd' = dictErase (dictErase (dictErase sd "image_threshold_class")
        "pixel_threshold_class") "normalization_class" ∧
      ∀ kv : String × StateVal, kv ∈ sd →
        kv.1 ≠ "image_threshold_class" → kv.1 ≠ "pixel_threshold_class" →
        kv.1 ≠ "normalization_class" → kv ∈ sd' := by
  obtain ⟨o1, o2, o3, m4, p1, p2, p3, lm, hm, hsd⟩ :=
    load_ok_inv env m sd strict m' sd' h
  refine ⟨hsd, ?_⟩
  intro kv hkv h1 h2 h3
  rw [hsd]
  exact mem_dictErase_of_ne _ _ _
    (mem_dictErase_of_ne _ _ _ (mem_dictErase_of_ne _ _ _ hkv h1) h2) h3

/-- Closed instance of the `C10` theorem on a mapping with one non-marker
key, discharging the success hypothesis by evaluation. -/
theorem load_removes_only_class_markers_witness :
    [("foo", StateVal.tensor)] =
        dictErase (dictErase (dictErase [("foo", StateVal.tensor)]
          "image_threshold_class") "pixel_threshold_class")
          "normalization_class" ∧
      ∀ kv : String × StateVal, kv ∈ [("foo", StateVal.tensor)] →
        kv.1 ≠ "image_threshold_class" → kv.1 ≠ "pixel_threshold_class" →
        kv.1 ≠ "normalization_class" → kv ∈ [("foo", StateVal.tensor)] :=
  load_removes_only_class_markers [] AnomalyModule.empty
    [("foo", StateVal.tensor)] true AnomalyModule.empty
    [("foo", StateVal.tensor)] rfl

/-- C5: on a successful load, each class marker key present in the
mapping is popped before delegation (the forwarded mapping is the
original minus the three markers), and its dotted-path value is
reconstructed — via dynamic module/class lookup — into a zero-argument
instance assigned to the corresponding attribute; an absent marker key
causes no assignment to that attribute. -/
theorem load_pops_and_reconstructs (env : Env) (m : AnomalyModule)
    (sd : StateDict) (strict : Bool) (m' : AnomalyModule) (sd' : StateDict)
    (h : load_state_dict env m sd strict = Except.ok (m', sd')) :
    sd' = dictErase (dictErase (dictErase sd "image_threshold_class")
        "pixel_threshold_class") "normalization_class" ∧
      (∀ p, dictGet? sd "image_threshold_class" = some (StateVal.str p) →
        ∃ c, resolvePath env p = Except.ok c ∧
          m'.image_threshold = some (PyObj.mk c)) ∧
      (dictContains sd "image_threshold_class" = false →
        m'.image_threshold = m.image_threshold) ∧
      (∀ p, dictGet? sd "pixel_threshold_class" = some (StateVal.str p) →
        ∃ c, resolvePath env p = Except.ok c ∧
          m'.pixel_threshold = some (PyObj.mk c)) ∧
      (dictContains sd "pixel_threshold_class" = false →
        m'.pixel_threshold = m.pixel_threshold) ∧
      (∀ p, dictGet? sd "normalization_class" = some (StateVal.str p) →
        ∃ c, resolvePath env p = Except.ok c ∧
          m'.normalization_metrics = some (PyObj.mk c)) ∧
      (dictContains sd "normalization_class" = false →
        m'.normalization_metrics = m.normalization_metrics) := by
  obtain ⟨o1, o2, o3, m4, p1, p2, p3, lm, hm, hsd⟩ :=
    load_ok_inv env m sd strict m' sd' h
  obtain ⟨q1, q2, q3⟩ := _load_metrics_ok_preserves env _ _ m4 lm
  obtain ⟨n1, g1⟩ := popClassKey_ok_obj env _ _ o1 _ p1
  obtain ⟨n2, g2⟩ := popClassKey_ok_obj env _ _ o2 _ p2
  obtain ⟨n3, g3⟩ := popClassKey_ok_obj env _ _ o3 _ p3
  have hi : m'.image_threshold = o1.or m.image_threshold := by
    rw [hm, q1]
  have hp : m'.pixel_threshold = o2.or m.pixel_threshold := by
    rw [hm, q2]
  have hn : m'.normalization_metrics = o3.or m.normalization_metrics := by
    rw [hm, q3]
  refine ⟨hsd, ?_, ?_, ?_, ?_, ?_, ?_⟩
  · intro p hget
    obtain ⟨c, hres, ho⟩ := g1 p hget
    exact ⟨c, hres, by rw [hi, ho]; rfl⟩
  · intro hc
    rw [hi, n1 hc]
    rfl
  · intro p hget
    have hget' : dictGet? (dictErase sd "image_threshold_class")
        "pixel_threshold_class" = some (StateVal.str p) := by
      rw [dictGet?_dictErase_ne sd _ _ (by decide)]
      exact hget
    obtain ⟨c, hres, ho⟩ := g2 p hget'
    exact ⟨c, hres, by rw [hp, ho]; rfl⟩
  · intro hc
    have hc' : dictContains (dictErase sd "image_threshold_class")
        "pixel_threshold_class" = false := by
      rw [dictContains_dictErase_ne sd _ _ (by decide)]
      exact hc
    rw [hp, n2 hc']
    rfl
  · intro p hget
    have hget' : dictGet? (dictErase (dictErase sd "image_threshold_class")
        "pixel_threshold_class") "normalization_class" =
        some (StateVal.str p) := by
      rw [dictGet?_dictErase_ne _ _ _ (by decide),
        dictGet?_dictErase_ne sd _ _ (by decide)]
      exact hget
    obtain ⟨c, hres, ho⟩ := g3 p hget'
    exact ⟨c, hres, by rw [hn, ho]; rfl⟩
  · intro hc
    have hc' : dictContains (dictErase (dictErase sd "image_threshold_class")
        "pixel_threshold_class") "normalization_class" = false := by
      rw [dictContains_dictErase_ne _ _ _ (by decide),
        dictContains_dictErase_ne sd _ _ (by decide)]
      exact hc
    rw [hn, n3 hc']
    rfl

/-- Closed instance of the `C5` theorem: a mapping holding only
`image_threshold_class` with a resolvable path yields the reconstructed
instance, while the other two attributes keep their previous (absent)
values and the marker is gone from the forwarded mapping. -/
theorem load_pops_and_reconstructs_witness :
    ([] : StateDict) =
        dictErase (dictErase (dictErase
          [("image_threshold_class", StateVal.str "t.C")]
          "image_threshold_class") "pixel_threshold_class")
          "normalization_class" ∧
      (∀ p, dictGet? [("image_threshold_class", StateVal.str "t.C")]
          "image_threshold_class" = some (StateVal.str p) →
        ∃ c, resolvePath [PyModuleDef.mk "t" [("C", PyClass.mk "t" "C")]] p =
            Except.ok c ∧
          (AnomalyModule.mk (some (PyObj.mk (PyClass.mk "t" "C"))) none none
            none none).image_threshold = some (PyObj.mk c)) ∧
      (dictContains [("image_threshold_class", StateVal.str "t.C")]
          "image_threshold_class" = false →
        (AnomalyModule.mk (some (PyObj.mk (PyClass.mk "t" "C"))) none none
          none none).image_threshold = AnomalyModule.empty.image_threshold) ∧
      (∀ p, dictGet? [("image_threshold_class", StateVal.str "t.C")]
          "pixel_threshold_class" = some (StateVal.str p) →
        ∃ c, resolvePath [PyModuleDef.mk "t" [("C", PyClass.mk "t" "C")]] p =
            Except.ok c ∧
          (AnomalyModule.mk (some (PyObj.mk (PyClass.mk "t" "C"))) none none
            none none).pixel_threshold = some (PyObj.mk c)) ∧
      (dictContains [("image_threshold_class", StateVal.str "t.C")]
          "pixel_threshold_class" = false →
        (AnomalyModule.mk (some (PyObj.mk (PyClass.mk "t" "C"))) none none
          none none).pixel_threshold = AnomalyModule.empty.pixel_threshold) ∧
      (∀ p, dictGet? [("image_threshold_class", StateVal.str "t.C")]
          "normalization_class" = some (StateVal.str p) →
        ∃ c, resolvePath [PyModuleDef.mk "t" [("C", PyClass.mk "t" "C")]] p =
            Except.ok c ∧
          (AnomalyModule.mk (some (PyObj.mk (PyClass.mk "t" "C"))) none none
            none none).normalization_metrics = some (PyObj.mk c)) ∧
      (dictContains [("image_threshold_class", StateVal.str "t.C")]
          "normalization_class" = false →
        (AnomalyModule.mk (some (PyObj.mk (PyClass.mk "t" "C"))) none none
          none none).normalization_metrics =
          AnomalyModule.empty.normalization_metrics) :=
  load_pops_and_reconstructs [PyModuleDef.mk "t" [("C", PyClass.mk "t" "C")]]
    AnomalyModule.empty [("image_threshold_class", StateVal.str "t.C")] true
    (AnomalyModule.mk (some (PyObj.mk (PyClass.mk "t" "C"))) none none
      none none) [] rfl

/-- C1: saving an instance and loading the state into a fresh instance
restores, for each of `image_threshold` / `pixel_threshold` /
`normalization_metrics` that was present, an object of exactly the same
concrete class, provided every recorded class resolves back to itself in
the import environment. -/
theorem save_load_restores_threshold_classes (env : Env)
    (m fresh : AnomalyModule) (strict : Bool) (h : moduleSavable env m) :
    ∃ m' sd', load_state_dict env fresh (state_dict m) strict =
        Except.ok (m', sd') ∧
      (∀ t, m.image_threshold = some t →
        ∃ t', m'.image_threshold = some t' ∧ t'.cls = t.cls) ∧
      (∀ t, m.pixel_threshold = some t →
        ∃ t', m'.pixel_threshold = some t' ∧ t'.cls = t.cls) ∧
      (∀ t, m.normalization_metrics = some t →
        ∃ t', m'.normalization_metrics = some t' ∧ t'.cls = t.cls) := by
  obtain ⟨m', hload, f1, f2, f3⟩ :=
    load_state_dict_of_saved env m fresh strict h
  refine ⟨m', _, hload, ?_, ?_, ?_⟩
  · intro t ht
    refine ⟨PyObj.mk t.cls, ?_, rfl⟩
    rw [f1, ht]
    rfl
  · intro t ht
    refine ⟨PyObj.mk t.cls, ?_, rfl⟩
    rw [f2, ht]
    rfl
  · intro t ht
    refine ⟨PyObj.mk t.cls, ?_, rfl⟩
    rw [f3, ht]
    rfl

/-- Fixture: the threshold class recorded by the demo instance. -/
def thresholdClass : PyClass :=
  PyClass.mk "anomalib.metrics.threshold" "F1AdaptiveThreshold"

/-- Fixture: a metric class reachable from `anomalib.metrics`. -/
def aurocClass : PyClass := PyClass.mk "anomalib.metrics" "AUROC"

/-- Fixture: a second metric class reachable from `anomalib.metrics`. -/
def f1Class : PyClass := PyClass.mk "anomalib.metrics" "F1Score"

/-- Fixture: an import environment holding the demo classes. -/
def demoEnv : Env :=
  [PyModuleDef.mk "anomalib.metrics.threshold"
      [("F1AdaptiveThreshold", thresholdClass)],
    PyModuleDef.mk "anomalib.metrics"
      [("AUROC", aurocClass), ("F1Score", f1Class)]]

/-- Fixture: an instance holding both thresholds and one metric in each
collection. -/
def demoModule : AnomalyModule :=
  AnomalyModule.mk (some (PyObj.mk thresholdClass))
    (some (PyObj.mk thresholdClass)) none
    (some (AnomalibMetricCollection.mk "pixel" [PyObj.mk aurocClass]))
    (some (AnomalibMetricCollection.mk "image" [PyObj.mk f1Class]))

theorem demoModule_savable : moduleSavable demoEnv demoModule := by
  refine ⟨?_, ?_, ?_, ?_, ?_⟩
  · intro t ht
    cases Option.some_inj.mp ht
    exact ⟨by decide,
      PyModuleDef.mk "anomalib.metrics.threshold"
        [("F1AdaptiveThreshold", thresholdClass)], rfl, rfl⟩
  · intro t ht
    cases Option.some_inj.mp ht
    exact ⟨by decide,
      PyModuleDef.mk "anomalib.metrics.threshold"
        [("F1AdaptiveThreshold", thresholdClass)], rfl, rfl⟩
  · intro t ht
    exact absurd ht (by simp [demoModule])
  · intro mc hmc o ho
    cases Option.some_inj.mp hmc
    rw [List.mem_singleton] at ho
    cases ho
    exact ⟨by decide, aurocClass, rfl⟩
  · intro mc hmc o ho
    cases Option.some_inj.mp hmc
    rw [List.mem_singleton] at ho
    cases ho
    exact ⟨by decide, f1Class, rfl⟩

/-- Closed instance of the `C1` theorem on the demo fixtures, with the
resolvability hypothesis discharged. -/
theorem save_load_restores_threshold_classes_witness :
    ∃ m' sd', load_state_dict demoEnv AnomalyModule.empty
        (state_dict demoModule) true = Except.ok (m', sd') ∧
      (∀ t, demoModule.image_threshold = some t →
        ∃ t', m'.image_threshold = some t' ∧ t'.cls = t.cls) ∧
      (∀ t, demoModule.pixel_threshold = some t →
        ∃ t', m'.pixel_threshold = some t' ∧ t'.cls = t.cls) ∧
      (∀ t, demoModule.normalization_metrics = some t →
        ∃ t', m'.normalization_metrics = some t' ∧ t'.cls = t.cls) :=
  save_load_restores_threshold_classes demoEnv demoModule
    AnomalyModule.empty true demoModule_savable

/-! ### Precise metric restoration (for the metric round trip) -/

theorem getMetricsAttr_pixel (M : AnomalyModule) :
    getMetricsAttr M "pixel" = M.pixel_metrics := rfl

theorem getMetricsAttr_image (M : AnomalyModule) :
    getMetricsAttr M "image" = M.image_metrics := by
  rw [getMetricsAttr, if_neg (by decide), if_pos rfl]

theorem setMetricsAttr_pixel (M : AnomalyModule)
    (mc : AnomalibMetricCollection) :
    setMetricsAttr M "pixel" mc = { M with pixel_metrics := some mc } := rfl

theorem setMetricsAttr_image (M : AnomalyModule)
    (mc : AnomalibMetricCollection) :
    setMetricsAttr M "image" mc = { M with image_metrics := some mc } := by
  rw [setMetricsAttr, if_neg (by decide), if_pos rfl]

theorem metricKeys_of_some (attr : String) (mc : AnomalibMetricCollection) :
    (metricStateEntries attr (some mc)).map Prod.fst =
      mc.metrics.map (fun o => attr ++ "." ++ o.cls.name ++ ".state") := by
  simp only [metricStateEntries, List.map_map]
  rfl

theorem resolvedInstances_of_restorable (env : Env) (attr : String)
    (hattr : '.' ∉ attr.data) (l : List PyObj)
    (h : ∀ o ∈ l, metricRestorable env o) :
    resolvedInstances env
      (l.map (fun o => attr ++ "." ++ o.cls.name ++ ".state")) =
      l.map (fun o => PyObj.mk o.cls) := by
  induction l with
  | nil => rfl
  | cons o rest ih =>
    obtain ⟨hdot, hres⟩ := h o (List.mem_cons_self ..)
    have hrest : ∀ o' ∈ rest, metricRestorable env o' := fun o' ho' =>
      h o' (List.mem_cons_of_mem _ ho')
    simp only [List.map_cons, resolvedInstances, List.filterMap_cons,
      token_of_metricEntry attr o.cls.name hattr hdot, Option.some_bind, hres]
    simp only [resolvedInstances] at ih
    rw [ih hrest]

theorem resolvedInstances_length (env : Env) (keys : List String)
    (h : keysResolve env keys) :
    (resolvedInstances env keys).length = keys.length := by
  induction keys with
  | nil => rfl
  | cons k rest ih =>
    obtain ⟨nm, c, htok, hres⟩ := h k (List.mem_cons_self ..)
    have hrest : keysResolve env rest := fun k' hk' =>
      h k' (List.mem_cons_of_mem _ hk')
    simp only [resolvedInstances, List.filterMap_cons, htok,
      Option.some_bind, hres]
    simp only [resolvedInstances] at ih
    simp [ih hrest]

theorem pixel_pass_trivial (env : Env) (M : AnomalyModule)
    (pm im : Option AnomalibMetricCollection)
    (hpm : metricStateEntries "pixel_metrics" pm = []) :
    _add_metrics env M "pixel" (metricStateEntries "pixel_metrics" pm
      ++ metricStateEntries "image_metrics" im) = Except.ok M :=
  _add_metrics_no_keys env M "pixel" _ (by
    rw [filter_pixel_keys, hpm]
    rfl)

theorem image_pass_trivial (env : Env) (M : AnomalyModule)
    (pm im : Option AnomalibMetricCollection)
    (him : metricStateEntries "image_metrics" im = []) :
    _add_metrics env M "image" (metricStateEntries "pixel_metrics" pm
      ++ metricStateEntries "image_metrics" im) = Except.ok M :=
  _add_metrics_no_keys env M "image" _ (by
    rw [filter_image_keys, him]
    rfl)

/-- The collection the metric pass rebuilds: the same prefix tag and one
fresh instance per originally-saved metric class. -/
def restoredCollection (name : String) (mc : AnomalibMetricCollection) :
    AnomalibMetricCollection :=
  AnomalibMetricCollection.mk name (mc.metrics.map (fun o => PyObj.mk o.cls))

theorem pixel_pass_nonempty (env : Env) (M : AnomalyModule)
    (mcp : AnomalibMetricCollection) (im : Option AnomalibMetricCollection)
    (hMp : M.pixel_metrics = none) (hne : mcp.metrics ≠ [])
    (hres : ∀ o ∈ mcp.metrics, metricRestorable env o) :
    _add_metrics env M "pixel" (metricStateEntries "pixel_metrics" (some mcp)
      ++ metricStateEntries "image_metrics" im) =
      Except.ok { M with pixel_metrics := some (restoredCollection "pixel" mcp) } := by
  have hfil : (((metricStateEntries "pixel_metrics" (some mcp)
      ++ metricStateEntries "image_metrics" im).map Prod.fst).filter
      (fun k => pyStartsWith k ("pixel" ++ "_metrics"))) =
      mcp.metrics.map
        (fun o => "pixel_metrics" ++ "." ++ o.cls.name ++ ".state") := by
    rw [filter_pixel_keys, metricKeys_of_some]
  have hfne : (((metricStateEntries "pixel_metrics" (some mcp)
      ++ metricStateEntries "image_metrics" im).map Prod.fst).filter
      (fun k => pyStartsWith k ("pixel" ++ "_metrics"))) ≠ [] := by
    rw [hfil]
    simpa using hne
  have hkr : keysResolve env
      (((metricStateEntries "pixel_metrics" (some mcp)
        ++ metricStateEntries "image_metrics" im).map Prod.fst).filter
        (fun k => pyStartsWith k ("pixel" ++ "_metrics"))) := by
    rw [filter_pixel_keys]
    exact keysResolve_of_metricEntries env "pixel_metrics" (some mcp)
      (by decide) (fun mc' hmc' => by
        cases Option.some_inj.mp hmc'
        exact fun o ho => ⟨(hres o ho).1, _, (hres o ho).2⟩)
  rw [_add_metrics_eq_of_resolve env M "pixel" _ hfne hkr]
  rw [hfil, resolvedInstances_of_restorable env "pixel_metrics" (by decide)
    mcp.metrics hres]
  rw [getMetricsAttr_pixel, hMp, setMetricsAttr_pixel]
  rfl

theorem image_pass_nonempty (env : Env) (M : AnomalyModule)
    (pm : Option AnomalibMetricCollection) (mci : AnomalibMetricCollection)
    (hMi : M.image_metrics = none) (hne : mci.metrics ≠ [])
    (hres : ∀ o ∈ mci.metrics, metricRestorable env o) :
    _add_metrics env M "image" (metricStateEntries "pixel_metrics" pm
      ++ metricStateEntries "image_metrics" (some mci)) =
      Except.ok { M with image_metrics := some (restoredCollection "image" mci) } := by
  have hfil : (((metricStateEntries "pixel_metrics" pm
      ++ metricStateEntries "image_metrics" (some mci)).map Prod.fst).filter
      (fun k => pyStartsWith k ("image" ++ "_metrics"))) =
      mci.metrics.map
        (fun o => "image_metrics" ++ "." ++ o.cls.name ++ ".state") := by
    rw [filter_image_keys, metricKeys_of_some]
  have hfne : (((metricStateEntries "pixel_metrics" pm
      ++ metricStateEntries "image_metrics" (some mci)).map Prod.fst).filter
      (fun k => pyStartsWith k ("image" ++ "_metrics"))) ≠ [] := by
    rw [hfil]
    simpa using hne
  have hkr : keysResolve env
      (((metricStateEntries "pixel_metrics" pm
        ++ metricStateEntries "image_metrics" (some mci)).map Prod.fst).filter
        (fun k => pyStartsWith k ("image" ++ "_metrics"))) := by
    rw [filter_image_keys]
    exact keysResolve_of_metricEntries env "image_metrics" (some mci)
      (by decide) (fun mc' hmc' => by
        cases Option.some_inj.mp hmc'
        exact fun o ho => ⟨(hres o ho).1, _, (hres o ho).2⟩)
  rw [_add_metrics_eq_of_resolve env M "image" _ hfne hkr]
  rw [hfil, resolvedInstances_of_restorable env "image_metrics" (by decide)
    mci.metrics hres]
  rw [getMetricsAttr_image, hMi, setMetricsAttr_image]
  rfl

theorem pixel_pass_summary (env : Env) (M : AnomalyModule)
    (pm im : Option AnomalibMetricCollection) (hMp : M.pixel_metrics = none)
    (hp : ∀ mc, pm = some mc → ∀ o ∈ mc.metrics, metricRestorable env o) :
    ∃ M2, _add_metrics env M "pixel"
        (metricStateEntries "pixel_metrics" pm
          ++ metricStateEntries "image_metrics" im) = Except.ok M2 ∧
      M2.image_metrics = M.image_metrics ∧
      M2.image_threshold = M.image_threshold ∧
      ∀ mc, pm = some mc → mc.metrics ≠ [] →
        M2.pixel_metrics = some (restoredCollection "pixel" mc) := by
  cases pm with
  | none =>
    exact ⟨M, pixel_pass_trivial env M none im rfl, rfl, rfl,
      fun mc hmc => absurd hmc (by simp)⟩
  | some mcp =>
    by_cases hne : mcp.metrics = []
    · refine ⟨M, pixel_pass_trivial env M (some mcp) im ?_, rfl, rfl, ?_⟩
      · simp [metricStateEntries, hne]
      · intro mc hmc hne'
        cases Option.some_inj.mp hmc
        exact absurd hne hne'
    · refine ⟨{ M with pixel_metrics := some (restoredCollection "pixel" mcp) },
        pixel_pass_nonempty env M mcp im hMp hne (hp mcp rfl), rfl, rfl, ?_⟩
      intro mc hmc _
      cases Option.some_inj.mp hmc
      rfl

theorem image_pass_summary (env : Env) (M : AnomalyModule)
    (pm im : Option AnomalibMetricCollection) (hMi : M.image_metrics = none)
    (hi : ∀ mc, im = some mc → ∀ o ∈ mc.metrics, metricRestorable env o) :
    ∃ M4, _add_metrics env M "image"
        (metricStateEntries "pixel_metrics" pm
          ++ metricStateEntries "image_metrics" im) = Except.ok M4 ∧
      M4.pixel_metrics = M.pixel_metrics ∧
      ∀ mc, im = some mc → mc.metrics ≠ [] →
        M4.image_metrics = some (restoredCollection "image" mc) := by
  cases im with
  | none =>
    exact ⟨M, image_pass_trivial env M pm none rfl, rfl,
      fun mc hmc => absurd hmc (by simp)⟩
  | some mci =>
    by_cases hne : mci.metrics = []
    · refine ⟨M, image_pass_trivial env M pm (some mci) ?_, rfl, ?_⟩
      · simp [metricStateEntries, hne]
      · intro mc hmc hne'
        cases Option.some_inj.mp hmc
        exact absurd hne hne'
    · refine ⟨{ M with image_metrics := some (restoredCollection "image" mci) },
        image_pass_nonempty env M pm mci hMi hne (hi mci rfl), rfl, ?_⟩
      intro mc hmc _
      cases Option.some_inj.mp hmc
      rfl

theorem _load_metrics_saved (env : Env) (M : AnomalyModule)
    (pm im : Option AnomalibMetricCollection)
    (hMp : M.pixel_metrics = none) (hMi : M.image_metrics = none)
    (hp : ∀ mc, pm = some mc → ∀ o ∈ mc.metrics, metricRestorable env o)
    (hi : ∀ mc, im = some mc → ∀ o ∈ mc.metrics, metricRestorable env o) :
    ∃ M4, _load_metrics env M
        (metricStateEntries "pixel_metrics" pm
          ++ metricStateEntries "image_metrics" im) = Except.ok M4 ∧
      (∀ mc, pm = some mc → mc.metrics ≠ [] →
        M4.pixel_metrics = some (restoredCollection "pixel" mc)) ∧
      (∀ mc, im = some mc → mc.metrics ≠ [] →
        M4.image_metrics = some (restoredCollection "image" mc)) := by
  obtain ⟨M2, e1, hM2i, _, hM2p⟩ := pixel_pass_summary env M pm im hMp hp
  obtain ⟨M4, e2, hM4p, hM4i⟩ := image_pass_summary env M2 pm im
    (hM2i.trans hMi) hi
  refine ⟨M4, ?_, ?_, hM4i⟩
  · simp only [_load_metrics, Bind.bind, Except.bind, e1]
    exact e2
  · intro mc hmc hne
    rw [hM4p]
    exact hM2p mc hmc hne

/-- The environment can rebuild every dynamically-typed component to
exactly its original class, metric instances included. -/
def moduleRestorable (env : Env) (m : AnomalyModule) : Prop :=
  (∀ t, m.image_threshold = some t → classResolvable env t.cls) ∧
    (∀ t, m.pixel_threshold = some t → classResolvable env t.cls) ∧
    (∀ t, m.normalization_metrics = some t → classResolvable env t.cls) ∧
    (∀ mc, m.pixel_metrics = some mc →
      ∀ o ∈ mc.metrics, metricRestorable env o) ∧
    (∀ mc, m.image_metrics = some mc →
      ∀ o ∈ mc.metrics, metricRestorable env o)

theorem load_saved_restores_metric_collections (env : Env)
    (m fresh : AnomalyModule) (strict : Bool) (h : moduleRestorable env m)
    (hfp : fresh.pixel_metrics = none) (hfi : fresh.image_metrics = none) :
    ∃ m' sd', load_state_dict env fresh (state_dict m) strict =
        Except.ok (m', sd') ∧
      (∀ mc, m.pixel_metrics = some mc → mc.metrics ≠ [] →
        ∃ mc', m'.pixel_metrics = some mc' ∧
          mc'.metrics.map (fun o => o.cls) =
            mc.metrics.map (fun o => o.cls)) ∧
      (∀ mc, m.image_metrics = some mc → mc.metrics ≠ [] →
        ∃ mc', m'.image_metrics = some mc' ∧
          mc'.metrics.map (fun o => o.cls) =
            mc.metrics.map (fun o => o.cls)) := by
  obtain ⟨h1, h2, h3, hp, hi⟩ := h
  obtain ⟨M4, hlm, hpix, himg⟩ := _load_metrics_saved env
    { fresh with
      image_threshold := (m.image_threshold.map
        (fun t => PyObj.mk t.cls)).or fresh.image_threshold
      pixel_threshold := (m.pixel_threshold.map
        (fun t => PyObj.mk t.cls)).or fresh.pixel_threshold
      normalization_metrics := (m.normalization_metrics.map
        (fun t => PyObj.mk t.cls)).or fresh.normalization_metrics }
    m.pixel_metrics m.image_metrics hfp hfi hp hi
  refine ⟨M4, _,
    load_saved_frame env m fresh strict h1 h2 h3 M4 hlm, ?_, ?_⟩
  · intro mc hmc hne
    refine ⟨restoredCollection "pixel" mc, hpix mc hmc hne, ?_⟩
    simp [restoredCollection, List.map_map]
  · intro mc hmc hne
    refine ⟨restoredCollection "image" mc, himg mc hmc hne, ?_⟩
    simp [restoredCollection, List.map_map]

/-- Counterexample to C3 as stated: the distinct class token `AUROC`
appears in two matching keys, and the loop in `_add_metrics` constructs
one instance per key — the fresh collection ends with two `AUROC`
instances, not "exactly once" per distinct class. -/
theorem metric_instantiated_per_key_cex :
    load_state_dict demoEnv AnomalyModule.empty
        [("pixel_metrics.AUROC.tp", StateVal.tensor),
          ("pixel_metrics.AUROC.fp", StateVal.tensor)] true =
      Except.ok (AnomalyModule.mk none none none
        (some (AnomalibMetricCollection.mk "pixel"
          [PyObj.mk aurocClass, PyObj.mk aurocClass])) none,
        [("pixel_metrics.AUROC.tp", StateVal.tensor),
          ("pixel_metrics.AUROC.fp", StateVal.tensor)]) ∧
      [PyObj.mk aurocClass, PyObj.mk aurocClass].length ≠ 1 :=
  ⟨rfl, by decide⟩

/-- C3 (amended): on load, one metric instance is constructed and added
per matching key — a class token occurring in `k` matching keys is
instantiated `k` times, not once per distinct class.  When each
originally-added metric contributes exactly one serialized key (the
framework save model here), a save-then-load round trip into a fresh
instance restores, for each nonempty collection, a collection holding
one instance of each originally-added metric class, in order. -/
theorem metric_instances_per_key_and_roundtrip :
    (∀ (env : Env) (m : AnomalyModule) (name : String) (sd : StateDict),
      ((sd.map Prod.fst).filter
        (fun k => pyStartsWith k (name ++ "_metrics"))) ≠ [] →
      keysResolve env ((sd.map Prod.fst).filter
        (fun k => pyStartsWith k (name ++ "_metrics"))) →
      _add_metrics env m name sd = Except.ok (setMetricsAttr m name
        (AnomalibMetricCollection.mk
          (((getMetricsAttr m name).getD
            (AnomalibMetricCollection.mk name [])).pfx)
          ((((getMetricsAttr m name).getD
            (AnomalibMetricCollection.mk name [])).metrics)
            ++ resolvedInstances env ((sd.map Prod.fst).filter
              (fun k => pyStartsWith k (name ++ "_metrics")))))) ∧
        (resolvedInstances env ((sd.map Prod.fst).filter
          (fun k => pyStartsWith k (name ++ "_metrics")))).length =
          ((sd.map Prod.fst).filter
            (fun k => pyStartsWith k (name ++ "_metrics"))).length) ∧
      (∀ (env : Env) (m fresh : AnomalyModule) (strict : Bool),
        moduleRestorable env m → fresh.pixel_metrics = none →
        fresh.image_metrics = none →
        ∃ m' sd', load_state_dict env fresh (state_dict m) strict =
            Except.ok (m', sd') ∧
          (∀ mc, m.pixel_metrics = some mc → mc.metrics ≠ [] →
            ∃ mc', m'.pixel_metrics = some mc' ∧
              mc'.metrics.map (fun o => o.cls) =
                mc.metrics.map (fun o => o.cls)) ∧
          (∀ mc, m.image_metrics = some mc → mc.metrics ≠ [] →
            ∃ mc', m'.image_metrics = some mc' ∧
              mc'.metrics.map (fun o => o.cls) =
                mc.metrics.map (fun o => o.cls))) :=
  ⟨fun env m name sd hne hres =>
    ⟨_add_metrics_eq_of_resolve env m name sd hne hres,
      resolvedInstances_length env _ hres⟩,
    fun env m fresh strict h hfp hfi =>
      load_saved_restores_metric_collections env m fresh strict h hfp hfi⟩

theorem demoModule_restorable : moduleRestorable demoEnv demoModule := by
  refine ⟨?_, ?_, ?_, ?_, ?_⟩
  · intro t ht
    cases Option.some_inj.mp ht
    exact ⟨by decide,
      PyModuleDef.mk "anomalib.metrics.threshold"
        [("F1AdaptiveThreshold", thresholdClass)], rfl, rfl⟩
  · intro t ht
    cases Option.some_inj.mp ht
    exact ⟨by decide,
      PyModuleDef.mk "anomalib.metrics.threshold"
        [("F1AdaptiveThreshold", thresholdClass)], rfl, rfl⟩
  · intro t ht
    exact absurd ht (by simp [demoModule])
  · intro mc hmc o ho
    cases Option.some_inj.mp hmc
    rw [List.mem_singleton] at ho
    cases ho
    exact ⟨by decide, rfl⟩
  · intro mc hmc o ho
    cases Option.some_inj.mp hmc
    rw [List.mem_singleton] at ho
    cases ho
    exact ⟨by decide, rfl⟩

/-- Closed instance of the amended `C3` theorem: the per-key part on a
one-key mapping, and the round trip on the demo instance. -/
theorem metric_instances_per_key_and_roundtrip_witness :
    (_add_metrics demoEnv AnomalyModule.empty "pixel"
        [("pixel_metrics.AUROC.tp", StateVal.tensor)] =
      Except.ok (setMetricsAttr AnomalyModule.empty "pixel"
        (AnomalibMetricCollection.mk
          (((getMetricsAttr AnomalyModule.empty "pixel").getD
            (AnomalibMetricCollection.mk "pixel" [])).pfx)
          ((((getMetricsAttr AnomalyModule.empty "pixel").getD
            (AnomalibMetricCollection.mk "pixel" [])).metrics)
            ++ resolvedInstances demoEnv
              (([("pixel_metrics.AUROC.tp", StateVal.tensor)].map
                Prod.fst).filter
                (fun k => pyStartsWith k ("pixel" ++ "_metrics")))))) ∧
      (resolvedInstances demoEnv
        (([("pixel_metrics.AUROC.tp", StateVal.tensor)].map Prod.fst).filter
          (fun k => pyStartsWith k ("pixel" ++ "_metrics")))).length =
        (([("pixel_metrics.AUROC.tp", StateVal.tensor)].map Prod.fst).filter
          (fun k => pyStartsWith k ("pixel" ++ "_metrics"))).length) ∧
      (∃ m' sd', load_state_dict demoEnv AnomalyModule.empty
          (state_dict demoModule) true = Except.ok (m', sd') ∧
        (∀ mc, demoModule.pixel_metrics = some mc → mc.metrics ≠ [] →
          ∃ mc', m'.pixel_metrics = some mc' ∧
            mc'.metrics.map (fun o => o.cls) =
              mc.metrics.map (fun o => o.cls)) ∧
        (∀ mc, demoModule.image_metrics = some mc → mc.metrics ≠ [] →
          ∃ mc', m'.image_metrics = some mc' ∧
            mc'.metrics.map (fun o => o.cls) =
              mc.metrics.map (fun o => o.cls))) :=
  ⟨metric_instances_per_key_and_roundtrip.1 demoEnv AnomalyModule.empty
      "pixel" [("pixel_metrics.AUROC.tp", StateVal.tensor)]
      (by decide)
      (fun k hk => by
        have hkk : k = "pixel_metrics.AUROC.tp" := by
          have := hk
          simp only [List.map_cons, List.map_nil] at this
          exact List.mem_singleton.mp (List.mem_of_mem_filter this)
        subst hkk
        exact ⟨"AUROC", aurocClass, by decide, rfl⟩),
    metric_instances_per_key_and_roundtrip.2 demoEnv demoModule
      AnomalyModule.empty true demoModule_restorable rfl rfl⟩
